import Mathlib

/-!
# Verification of the web-crawler core against its specification

This file gives a shallow embedding, in Lean 4, of the crawl-orchestration and
state-graph engine of the `knowledge-graph-base/web-crawler` repository:

* `crawler/base_crawler.py` — the BFS frontier loop (`BaseCrawler.crawl`,
  `BaseCrawler._update_referrers`);
* `crawler/bfs_crawler.py` — the page-visit retry loop (`BFSCrawler._visit_url`,
  `_load_page`) and link handling of `_process_page`;
* `crawler/interactive_crawler.py` — the interactive exploration loop
  (`InteractiveCrawler.crawl`, `_execute_action`, `_create_page_state`,
  `_visit_url`);
* `crawler/domain/graph.py` — `Action`, `PageState`, `Edge`, `CrawlGraph` with
  `add_page` / `add_state` / `add_edge` and `to_dict` / `from_dict`;
* `crawler/domain/page.py`, `crawler/domain/elements.py` — `Page`,
  `PageMetadata`, `Screenshot`, `InteractiveElement`;
* `crawler/dom_actions.py` — `DOMActions.find_interactive_elements`.

Modelling conventions, used throughout:

* Python `dict` becomes an association list `List (String × α)` with the
  insertion semantics of `dict.__setitem__` (`dictInsert`: an existing key keeps
  its position and gets the new value, a new key is appended).
* Python `set` of strings becomes a duplicate-free `List String`; `set.add`
  becomes `setAdd` (append if absent).  Where the *iteration order* of a set
  matters (`for link in page_data["links"]` in `BaseCrawler.crawl`), the order
  is an explicit parameter, since Python guarantees no order for sets.
* `datetime` values are carried as their ISO strings, so `isoformat` /
  `fromisoformat` are the identity; float durations and weights are carried as
  natural-number ticks.  No claim depends on their arithmetic.
* The external Selenium driver and the decision maker are parameters: functions
  from a call counter to the outcome of that call.
* Exceptions become `Except String` or explicit failure results.
-/

set_option autoImplicit false

/-! ## Association-list and set-as-list primitives (Python `dict` / `set`) -/

/-- Python `d[k] = v`: replace the value at an existing key (keeping its
position), otherwise append the new binding. -/
def dictInsert {α : Type} (d : List (String × α)) (k : String) (v : α) :
    List (String × α) :=
  match d with
  | [] => [(k, v)]
  | (k', v') :: rest =>
    if k' = k then (k', v) :: rest else (k', v') :: dictInsert rest k v

/-- Python `d.get(k)` / `k in d`. -/
def dictLookup {α : Type} (d : List (String × α)) (k : String) : Option α :=
  match d with
  | [] => none
  | (k', v') :: rest => if k' = k then some v' else dictLookup rest k

/-- The key list of a modelled dict. -/
def dictKeys {α : Type} (d : List (String × α)) : List String :=
  d.map Prod.fst

/-- Python `s.add(x)` on a set modelled as a duplicate-free list. -/
def setAdd (s : List String) (x : String) : List String :=
  if x ∈ s then s else s ++ [x]

/-! ## BFS crawl model (`BaseCrawler.crawl`, `crawler/base_crawler.py`)

The crawler state carries the fields of `BaseCrawler` that the loop mutates:
the frontier deque, `self.visited`, `self.graph` (url → the page's link list)
and `self.referrers`, plus a ghost `trace` recording, in order, each
`(url, depth)` on which `_process_page` was invoked (i.e. each *visit*).

Parameters:
* `links u` — the list the loop `for link in page_data["links"]` iterates over
  for page `u` (the iteration order of the Python set of extracted links);
* `ok u` — whether `_process_page u` succeeds.
-/

structure BfsState where
  queue : List (String × Nat)
  visited : List String
  graph : List (String × List String)
  referrers : List (String × List String)
  trace : List (String × Nat)
  deriving Repr, DecidableEq

/-- `BaseCrawler._update_referrers(url, queue, start_url)`: if `url` is a key of
`self.graph`, add `list(queue)[-1][0]` (or `start_url` when the deque is empty)
to `self.referrers[url]`.  `queueAfterPop` is the deque after the `popleft`. -/
def updateReferrers (referrers : List (String × List String))
    (graph : List (String × List String)) (url : String)
    (queueAfterPop : List (String × Nat)) (startUrl : String) :
    List (String × List String) :=
  if (dictLookup graph url).isSome then
    let currentReferrer :=
      match queueAfterPop.getLast? with
      | some (u, _) => u
      | none => startUrl
    let old := (dictLookup referrers url).getD []
    dictInsert referrers url (setAdd old currentReferrer)
  else referrers

/-- One iteration of the `while queue:` loop of `BaseCrawler.crawl`.
Returns `none` when the frontier is empty (loop exit). -/
def crawlStep (links : String → List String) (ok : String → Bool)
    (maxDepth : Nat) (startUrl : String) (s : BfsState) : Option BfsState :=
  match s.queue with
  | [] => none
  | (url, depth) :: rest =>
    if url ∈ s.visited then
      some { s with
        queue := rest
        referrers := updateReferrers s.referrers s.graph url rest startUrl }
    else
      let visited' := url :: s.visited
      if ok url then
        let pageLinks := links url
        let enq :=
          if depth < maxDepth then
            (pageLinks.filter (fun l => l ∉ visited')).map
              (fun l => (l, depth + 1))
          else []
        some { s with
          queue := rest ++ enq
          visited := visited'
          graph := dictInsert s.graph url pageLinks
          trace := s.trace ++ [(url, depth)] }
      else
        some { s with
          queue := rest
          visited := visited'
          trace := s.trace ++ [(url, depth)] }

/-- Run the crawl loop for at most `n` iterations. -/
def crawlRun (links : String → List String) (ok : String → Bool)
    (maxDepth : Nat) (startUrl : String) : Nat → BfsState → BfsState
  | 0, s => s
  | n + 1, s =>
    match crawlStep links ok maxDepth startUrl s with
    | none => s
    | some s' => crawlRun links ok maxDepth startUrl n s'

/-- `BaseCrawler.crawl` seeds the frontier with `deque([(start_url, 0)])` and
starts from empty `visited`, `graph` and `referrers`. -/
def crawlInit (startUrl : String) : BfsState :=
  ⟨[(startUrl, 0)], [], [], [], []⟩

/-- `ReachN links start k u`: `u` is reachable from `start` following at most
`k` links.  This depends only on link-list membership, not on order. -/
def ReachN (links : String → List String) (start : String) :
    Nat → String → Prop
  | 0, u => u = start
  | k + 1, u => ReachN links start k u ∨
      ∃ w, ReachN links start k w ∧ u ∈ links w

/-! ## Page-visit retry model (`_visit_url` / `_load_page`)

`BFSCrawler._visit_url` (bfs_crawler.py:60-105) and
`InteractiveCrawler._visit_url` (interactive_crawler.py:265-294) both loop
`while current_try < max_retries` with `max_retries = 3`.  The driver is a
parameter `nav : Nat → NavOutcome` giving the outcome of the k-th
`driver.get` call of this visit; `shot k` is whether the screenshot step of
attempt `k` succeeds (BFS only).  The result records the boolean returned,
the number of navigation attempts (`driver.get` calls) made, and the error
reports sent to `visualizer.log_error`. -/

inductive NavOutcome where
  | ok
  | timeout
  | err
  deriving Repr, DecidableEq

structure VisitResult where
  success : Bool
  navAttempts : Nat
  reports : List String
  deriving Repr, DecidableEq

/-- `BFSCrawler._load_page`: calls `driver.get` and catches *every* exception
itself, returning `False`; so a navigation timeout surfaces only as a `False`
return value. -/
def bfsLoadPage (o : NavOutcome) : Bool :=
  match o with
  | .ok => true
  | .timeout => false
  | .err => false

/-- The `while current_try < max_retries` loop of `BFSCrawler._visit_url`.
When `_load_page` returns `False` the body raises
`TimeoutException("Page load failed")`, caught by the `except TimeoutException`
clause which increments `current_try`, reports
`"Timeout after 3 attempts"` once the bound is hit, and otherwise retries.
A screenshot failure raises a generic exception, caught by `except Exception`
which reports once and returns `False`.  `fuel` is `max_retries - current_try`;
the `fuel = 0` case is the loop exiting with no `return` (Python yields
`None`, i.e. falsy). -/
def bfsVisitLoop (nav : Nat → NavOutcome) (shot : Nat → Bool) :
    Nat → Nat → Nat → List String → VisitResult
  | 0, _, attempts, reports => ⟨false, attempts, reports⟩
  | fuel + 1, tryIdx, attempts, reports =>
    let attempts' := attempts + 1
    if bfsLoadPage (nav tryIdx) then
      if shot tryIdx then ⟨true, attempts', reports⟩
      else ⟨false, attempts', reports ++ ["Failed to take screenshot"]⟩
    else
      let tryIdx' := tryIdx + 1
      if tryIdx' = 3 then ⟨false, attempts', reports ++ ["Timeout after 3 attempts"]⟩
      else bfsVisitLoop nav shot fuel tryIdx' attempts' reports

def bfsVisitUrl (nav : Nat → NavOutcome) (shot : Nat → Bool) : VisitResult :=
  bfsVisitLoop nav shot 3 0 0 []

/-- `InteractiveCrawler._load_page`: like the BFS one, catches every exception
(including `TimeoutException`) and returns `False`. -/
def intLoadPage (o : NavOutcome) : Bool :=
  match o with
  | .ok => true
  | .timeout => false
  | .err => false

/-- The loop of `InteractiveCrawler._visit_url`.  Its body is
`return self._load_page(url)`; since `_load_page` catches every exception
internally, the `try` body always returns on the first iteration and the
`except TimeoutException` / `except Exception` clauses (which would retry and
report) are unreachable. -/
def intVisitLoop (nav : Nat → NavOutcome) :
    Nat → Nat → Nat → List String → VisitResult
  | 0, _, attempts, reports => ⟨false, attempts, reports⟩
  | _fuel + 1, tryIdx, attempts, reports =>
    ⟨intLoadPage (nav tryIdx), attempts + 1, reports⟩

def intVisitUrl (nav : Nat → NavOutcome) : VisitResult :=
  intVisitLoop nav 3 0 0 []

/-! ## Domain model (`crawler/domain/`)

`datetime` fields are carried as ISO strings (`isoformat` and `fromisoformat`
are then the identity); `float` durations/weights as natural-number ticks. -/

/-- `ActionType` (domain/graph.py, domain/actions.py, domain/decisions.py). -/
inductive ActionTypeM where
  | click
  | input
  | hover
  | scroll
  | navigate
  deriving Repr, DecidableEq

/-- The `.value` of the enum member. -/
def ActionTypeM.value : ActionTypeM → String
  | .click => "click"
  | .input => "input"
  | .hover => "hover"
  | .scroll => "scroll"
  | .navigate => "navigate"

/-- `Action` (domain/graph.py:8-31; domain/actions.py has the same fields). -/
structure GAction where
  action_id : String
  action_type : ActionTypeM
  element_id : String
  timestamp : String
  duration : Nat
  success : Bool
  input_value : Option String := none
  scroll_position : Option Int := none
  url : Option String := none
  error_message : Option String := none
  deriving Repr, DecidableEq

/-- `PageState` as defined in domain/graph.py:79-103 (the class
`interactive_crawler.py` imports): `state_id`, `page_id`, `timestamp`,
`form_values`, `scroll_position`, `action_history`, `dom_changes`. -/
structure GPageState where
  state_id : String
  page_id : String
  timestamp : String
  form_values : List (String × String)
  scroll_position : Int
  action_history : List GAction := []
  dom_changes : List (String × String) := []
  deriving Repr, DecidableEq

/-- The four-field element summaries `_create_page_state` builds
(interactive_crawler.py:251-259). -/
structure ElemSummary where
  element_id : String
  element_type : String
  text : String
  has_input_field : Bool
  deriving Repr, DecidableEq

/-- `PageState` as defined in domain/actions.py:125-137 (and
domain/decisions.py:39-51): the class whose fields match the keyword
arguments `_create_page_state` passes. -/
structure ActPageState where
  state_id : String
  page_id : String
  url : String
  timestamp : String
  screenshot_paths : List String
  interactive_elements : List ElemSummary
  current_scroll_position : Int
  form_values : List (String × String)
  page_title : String
  action_history : List GAction := []
  dom_changes : List (String × String) := []
  deriving Repr, DecidableEq

/-- `Edge` (domain/graph.py:106-111).  `weight = 1.0` is carried as `1`. -/
structure GEdge where
  source_state_id : String
  target_state_id : String
  action : GAction
  weight : Nat
  transition_time : Nat
  deriving Repr, DecidableEq

/-- `ElementLocation` (domain/elements.py:6-10). -/
structure ElementLocation where
  x : Int
  y : Int
  width : Int
  height : Int
  deriving Repr, DecidableEq

/-- `ScreenshotSection` (domain/elements.py:21-24). -/
structure ScreenshotSectionM where
  start_section : Nat
  end_section : Nat
  spans_sections : Bool := false
  deriving Repr, DecidableEq

/-- `InteractiveElement` (domain/elements.py:27-39). -/
structure InteractiveElement where
  element_id : String
  element_type : String
  tag_name : String
  text : String
  location : ElementLocation
  screenshot_section : ScreenshotSectionM
  attributes : List (String × String) := []
  is_enabled : Bool := true
  is_displayed : Bool := true
  has_input_field : Bool := false
  parent_form_id : Option String := none
  timestamp : String := ""
  deriving Repr, DecidableEq

/-- `Screenshot` (domain/page.py:7-13). -/
structure ScreenshotM where
  screenshot_id : String
  path : String
  section_number : Nat
  viewport_height : Nat
  viewport_width : Nat
  scroll_position : Int
  deriving Repr, DecidableEq

/-- `PageMetadata` (domain/page.py:16-24). -/
structure PageMetadataM where
  url : String
  title : String
  timestamp : String
  total_height : Nat
  total_width : Nat
  load_time : Nat
  viewport_height : Nat
  viewport_width : Nat
  deriving Repr, DecidableEq

/-- `Page` (domain/page.py:27-32). -/
structure PageM where
  page_id : String
  metadata : PageMetadataM
  screenshots : List ScreenshotM
  interactive_elements : List InteractiveElement
  html_snapshot : Option String := none
  deriving Repr, DecidableEq

/-- `CrawlGraph` (domain/graph.py:123-129), parameterised by the type of the
values of the state map (`domain/graph.py`'s own `PageState` or the
`domain/actions.py` one). -/
structure CrawlGraphM (σ : Type) where
  start_url : String
  pages : List (String × PageM)
  states : List (String × σ)
  edges : List GEdge
  timestamp : String
  visited_states : List String
  deriving Repr, DecidableEq

/-- Access to the `state_id` attribute, shared by both `PageState` classes. -/
class HasStateId (σ : Type) where
  stateId : σ → String

instance : HasStateId GPageState := ⟨GPageState.state_id⟩

instance : HasStateId ActPageState := ⟨ActPageState.state_id⟩

/-- `CrawlGraph.add_page` (graph.py:131-133): `self.pages[page.page_id] = page`. -/
def CrawlGraphM.add_page {σ : Type} (g : CrawlGraphM σ) (p : PageM) :
    CrawlGraphM σ :=
  { g with pages := dictInsert g.pages p.page_id p }

/-- `CrawlGraph.add_state` (graph.py:135-138): inserts into `self.states` and
adds the id to `self.visited_states`. -/
def CrawlGraphM.add_state {σ : Type} [HasStateId σ] (g : CrawlGraphM σ)
    (st : σ) : CrawlGraphM σ :=
  { g with
    states := dictInsert g.states (HasStateId.stateId st) st
    visited_states := setAdd g.visited_states (HasStateId.stateId st) }

/-- `CrawlGraph.add_edge` (graph.py:140-142): `self.edges.append(edge)`. -/
def CrawlGraphM.add_edge {σ : Type} (g : CrawlGraphM σ) (e : GEdge) :
    CrawlGraphM σ :=
  { g with edges := g.edges ++ [e] }

/-! ## Serialization (`to_dict` / `from_dict`)

The dict values produced by the `to_dict` methods are modelled structurally,
one Lean structure per dictionary shape.  `isoformat()` on the ISO-string
timestamps is the identity. -/

/-- Output shape of `Action.to_dict` (graph.py:20-32): `action_type` is the
enum's `.value` string. -/
structure ActionDict where
  action_id : String
  action_type : String
  element_id : String
  timestamp : String
  duration : Nat
  success : Bool
  input_value : Option String
  scroll_position : Option Int
  url : Option String
  error_message : Option String
  deriving Repr, DecidableEq

def GAction.to_dict (a : GAction) : ActionDict :=
  ⟨a.action_id, a.action_type.value, a.element_id, a.timestamp, a.duration,
    a.success, a.input_value, a.scroll_position, a.url, a.error_message⟩

/-- Output shape of `PageState.to_dict` (graph.py:88-97). -/
structure StateDict where
  state_id : String
  page_id : String
  timestamp : String
  form_values : List (String × String)
  scroll_position : Int
  action_history : List ActionDict
  dom_changes : List (String × String)
  deriving Repr, DecidableEq

def GPageState.to_dict (s : GPageState) : StateDict :=
  ⟨s.state_id, s.page_id, s.timestamp, s.form_values, s.scroll_position,
    s.action_history.map GAction.to_dict, s.dom_changes⟩

/-- Output shape of `Edge.to_dict` (graph.py:113-120). -/
structure EdgeDict where
  source_state_id : String
  target_state_id : String
  action : ActionDict
  weight : Nat
  transition_time : Nat
  deriving Repr, DecidableEq

def GEdge.to_dict (e : GEdge) : EdgeDict :=
  ⟨e.source_state_id, e.target_state_id, e.action.to_dict, e.weight,
    e.transition_time⟩

/-- Output shape of `InteractiveElement.to_dict` (elements.py:41-64). -/
structure ElementDict where
  element_id : String
  element_type : String
  tag_name : String
  text : String
  location : ElementLocation
  screenshot_section : ScreenshotSectionM
  attributes : List (String × String)
  is_enabled : Bool
  is_displayed : Bool
  has_input_field : Bool
  parent_form_id : Option String
  timestamp : String
  deriving Repr, DecidableEq

def InteractiveElement.to_dict (e : InteractiveElement) : ElementDict :=
  ⟨e.element_id, e.element_type, e.tag_name, e.text, e.location,
    e.screenshot_section, e.attributes, e.is_enabled, e.is_displayed,
    e.has_input_field, e.parent_form_id, e.timestamp⟩

/-- Output shape of `Page.to_dict` (page.py:34-62). -/
structure PageDict where
  page_id : String
  metadata : PageMetadataM
  screenshots : List ScreenshotM
  interactive_elements : List ElementDict
  html_snapshot : Option String
  deriving Repr, DecidableEq

def PageM.to_dict (p : PageM) : PageDict :=
  ⟨p.page_id, p.metadata, p.screenshots,
    p.interactive_elements.map InteractiveElement.to_dict, p.html_snapshot⟩

/-- Output shape of `CrawlGraph.to_dict` (graph.py:152-160). -/
structure GraphDict where
  start_url : String
  pages : List (String × PageDict)
  states : List (String × StateDict)
  edges : List EdgeDict
  timestamp : String
  visited_states : List String
  deriving Repr, DecidableEq

def CrawlGraphM.to_dict (g : CrawlGraphM GPageState) : GraphDict :=
  ⟨g.start_url,
    g.pages.map (fun p => (p.1, p.2.to_dict)),
    g.states.map (fun p => (p.1, p.2.to_dict)),
    g.edges.map GEdge.to_dict,
    g.timestamp,
    g.visited_states⟩

/-- `CrawlGraph.from_dict` (graph.py:162-176).  Its body evaluates, in order,
`{pid: Page.from_dict(pdata) for ...}`, `{sid: PageState.from_dict(sdata) for
...}` and `[Edge.from_dict(edata) for ...]`.  None of the three classes it
refers to defines `from_dict`: `domain.page.Page` has no `from_dict`
classmethod, and neither does `domain.graph.PageState` nor
`domain.graph.Edge` (the `PageState.from_dict` methods that do exist live on
the distinct classes in domain/actions.py and domain/decisions.py).  So the
first non-empty comprehension raises `AttributeError`; only a graph whose
`pages`, `states` and `edges` are all empty gets past them. -/
def CrawlGraphM.from_dict (data : GraphDict) :
    Except String (CrawlGraphM GPageState) :=
  if data.pages ≠ [] then
    Except.error "AttributeError: type object Page has no attribute from_dict"
  else if data.states ≠ [] then
    Except.error
      "AttributeError: type object PageState has no attribute from_dict"
  else if data.edges ≠ [] then
    Except.error "AttributeError: type object Edge has no attribute from_dict"
  else
    Except.ok
      { start_url := data.start_url
        pages := []
        states := []
        edges := []
        timestamp := data.timestamp
        visited_states := data.visited_states }

/-! ## Graph construction operations (for the append-only invariant) -/

/-- One mutating call on a `CrawlGraph` (graph.py:131-142). -/
inductive GraphOp where
  | addPage (p : PageM)
  | addState (s : GPageState)
  | addEdge (e : GEdge)

def applyOp (g : CrawlGraphM GPageState) : GraphOp → CrawlGraphM GPageState
  | .addPage p => g.add_page p
  | .addState s => g.add_state s
  | .addEdge e => g.add_edge e

/-! ## Element scan model (`DOMActions.find_interactive_elements`,
dom_actions.py:123-306)

The driver side of a scan is its input: for each entry of the `selectors`
dict, in order, the list of elements `driver.find_elements` returns (or
`none` when the query raises, in which case the code records an empty list
for that category).  Each raw element carries the attribute values the code
reads. -/

structure RawElem where
  visible : Bool
  tag_name : String
  text : String
  value : Option String := none
  placeholder : Option String := none
  contenteditable : Bool := false
  is_enabled : Bool := true
  is_displayed : Bool := true
  x : Int := 0
  y : Int := 0
  width : Int := 0
  height : Int := 0
  attributes : List (String × String) := []
  deriving Repr, DecidableEq

/-- `element.get_attribute('value') or element.text`, then the
`placeholder or ''` fallback for empty-texted `input`/`textarea` elements
(dom_actions.py:258-261).  Python `or` takes the left operand when it is a
non-empty string. -/
def scanText (e : RawElem) : String :=
  let t1 :=
    match e.value with
    | some v => if v ≠ "" then v else e.text
    | none => e.text
  if t1 = "" ∧ (e.tag_name = "input" ∨ e.tag_name = "textarea") then
    match e.placeholder with
    | some p => p
    | none => ""
  else t1

/-- dom_actions.py:263-267. -/
def scanIsInput (e : RawElem) : Bool :=
  e.tag_name = "input" ∨ e.tag_name = "textarea" ∨ e.tag_name = "select" ∨
    e.contenteditable

/-- The `InteractiveElement(...)` built at dom_actions.py:269-297 for the
`count`-th surviving element (`element_id = f"{element_type}_{element_count}"`). -/
def mkScanElem (category : String) (count : Nat) (e : RawElem) :
    InteractiveElement :=
  { element_id := category ++ "_" ++ Nat.repr count
    element_type := category
    tag_name := e.tag_name
    text := scanText e
    location := ⟨e.x, e.y, e.width, e.height⟩
    screenshot_section := ⟨1, 1, false⟩
    attributes := e.attributes
    is_enabled := e.is_enabled
    is_displayed := e.is_displayed
    has_input_field := scanIsInput e }

/-- The inner `for element in elements` loop for one category: filters by
`is_effectively_visible`, increments the shared `element_count` before each id
assignment.  Returns the surviving elements and the updated counter. -/
def scanCategory (category : String) (elems : List RawElem) (count : Nat) :
    List InteractiveElement × Nat :=
  match elems with
  | [] => ([], count)
  | e :: rest =>
    if e.visible then
      let out := scanCategory category rest (count + 1)
      (mkScanElem category (count + 1) e :: out.1, out.2)
    else scanCategory category rest count

/-- The outer `for element_type, selector in selectors.items()` loop.
`element_count` starts at `0` for every call (it is a local variable).  A
category whose query raised (`none`) gets `[]`; a category with no visible
elements is *not* added to the result dict (`if visible_elements:`). -/
def scanLoop (inputs : List (String × Option (List RawElem))) (count : Nat) :
    List (String × List InteractiveElement) :=
  match inputs with
  | [] => []
  | (category, none) :: rest => (category, []) :: scanLoop rest count
  | (category, some elems) :: rest =>
    let out := scanCategory category elems count
    if out.1 ≠ [] then (category, out.1) :: scanLoop rest out.2
    else scanLoop rest out.2

/-- `DOMActions.find_interactive_elements`: one scan call. -/
def findInteractiveElements (inputs : List (String × Option (List RawElem))) :
    List (String × List InteractiveElement) :=
  scanLoop inputs 0

/-- All element ids produced by one scan. -/
def scanIds (out : List (String × List InteractiveElement)) : List String :=
  out.flatMap (fun p => p.2.map InteractiveElement.element_id)

/-- A crawl run performs one `find_interactive_elements` call per processed
page or state; each call starts its `element_count` at `0` again. -/
def runScans (scans : List (List (String × Option (List RawElem)))) :
    List (List (String × List InteractiveElement)) :=
  scans.map findInteractiveElements

/-! ## Interactive crawler model (`crawler/interactive_crawler.py`)

`InteractiveCrawler` imports `PageState` from `domain/graph.py` (line 15), but
`_create_page_state` (lines 222-263) constructs it with the keyword-argument
set of the `PageState` class of domain/actions.py / domain/decisions.py.  The
embedding keeps both facts: `createPageStateKwargs` lists the keywords passed,
`graphPageStateFields` the `__init__` parameters the imported dataclass
accepts, and `createPageState` raises (`Except.error`) exactly when some
keyword is not accepted — which is what CPython does.  `mkPageState` is the
record the call would build on the matching class. -/

/-- Whether `p` is an initial segment of the second list. -/
def startsWithChars : List Char → List Char → Bool
  | [], _ => true
  | _ :: _, [] => false
  | p :: ps, c :: cs => p = c && startsWithChars ps cs

/-- Python `str.replace` on character lists: replace every non-overlapping
occurrence of `pat` (non-empty) left to right.  `fuel` bounds the recursion
by the string length (each step consumes at least one character). -/
def replaceFuel (pat rep : List Char) : Nat → List Char → List Char
  | 0, s => s
  | _ + 1, [] => []
  | fuel + 1, c :: rest =>
    if startsWithChars pat (c :: rest) then
      rep ++ replaceFuel pat rep fuel (List.drop (pat.length - 1) rest)
    else c :: replaceFuel pat rep fuel rest

/-- Python `s.replace(pat, rep)` (for the non-empty patterns used here). -/
def pyReplace (s pat rep : String) : String :=
  ⟨replaceFuel pat.data rep.data s.data.length s.data⟩

/-- `clean_filename` (crawler/utils.py:6-8). -/
def cleanFilename (url : String) : String :=
  pyReplace (pyReplace (pyReplace url "http://" "") "https://" "") "/" "_"

/-- The keyword arguments of the `PageState(...)` call in
`_create_page_state` (interactive_crawler.py:245-263). -/
def createPageStateKwargs : List String :=
  ["state_id", "page_id", "url", "timestamp", "screenshot_paths",
    "interactive_elements", "current_scroll_position", "form_values",
    "page_title"]

/-- The `__init__` parameters of the imported `domain.graph.PageState`
dataclass (graph.py:79-86). -/
def graphPageStateFields : List String :=
  ["state_id", "page_id", "timestamp", "form_values", "scroll_position",
    "action_history", "dom_changes"]

/-- Whether the constructor call type-checks in Python (it does not: `url`,
`screenshot_paths`, `interactive_elements`, `current_scroll_position` and
`page_title` are unexpected keyword arguments). -/
def createPageStateAccepted : Bool :=
  createPageStateKwargs.all (fun k => decide (k ∈ graphPageStateFields))

/-- The record described by the keyword arguments of `_create_page_state`
(the fields of the domain/actions.py `PageState`).  `stamp` is the
`timestamp_str()` draw, `scroll` the `window.pageYOffset` read, `forms` the
form-value harvest, all external inputs. -/
def mkPageState (stamp : String) (iso : String) (scroll : Int)
    (forms : List (String × String)) (page : PageM) : ActPageState :=
  { state_id := "state_" ++ stamp
    page_id := page.page_id
    url := page.metadata.url
    timestamp := iso
    screenshot_paths := page.screenshots.map ScreenshotM.path
    interactive_elements := page.interactive_elements.map (fun e =>
      ⟨e.element_id, e.element_type, e.text, e.has_input_field⟩)
    current_scroll_position := scroll
    form_values := forms
    page_title := page.metadata.title }

/-- `_create_page_state` as executed: the `PageState(...)` call raises
`TypeError` because the imported class does not accept these keywords. -/
def createPageState (stamp : String) (iso : String) (scroll : Int)
    (forms : List (String × String)) (page : PageM) :
    Except String ActPageState :=
  if createPageStateAccepted then
    Except.ok (mkPageState stamp iso scroll forms page)
  else
    Except.error
      "TypeError: __init__() got an unexpected keyword argument url"

/-- The external-world data `_process_page` turns into a `Page`
(interactive_crawler.py:103-164): driver title, screenshot handler output,
scanned elements, dimensions, timing. -/
structure PageRaw where
  title : String
  screenshots : List ScreenshotM
  elements : List InteractiveElement
  totalHeight : Nat := 0
  totalWidth : Nat := 0
  loadTime : Nat := 0
  vpH : Nat := 0
  vpW : Nat := 0
  iso : String := ""
  deriving Repr, DecidableEq

/-- The `Page` object `_process_page` builds on success:
`page_id = f"page_{clean_filename(url)}"` (interactive_crawler.py:144-149). -/
def mkPage (url : String) (r : PageRaw) : PageM :=
  { page_id := "page_" ++ cleanFilename url
    metadata :=
      { url := url, title := r.title, timestamp := r.iso
        total_height := r.totalHeight, total_width := r.totalWidth
        load_time := r.loadTime, viewport_height := r.vpH
        viewport_width := r.vpW }
    screenshots := r.screenshots
    interactive_elements := r.elements }

/-- `ActionDecision` (domain/actions.py:13-34): the five decision dataclasses.
`scroll` carries only `position` — the class has no `element_id` field. -/
inductive ActionDecision where
  | click (element_id : String)
  | inputText (element_id : String) (input_value : String)
  | hover (element_id : String)
  | scroll (position : Int)
  | navigate (url : String)
  deriving Repr, DecidableEq

/-- The environment of one interactive crawl: the decision maker and the
driver, indexed by call counters.  `decide k` / `shouldCont k` are the k-th
answers of the decision maker; `domOk k` is the outcome of the
`click_by_id` / `input_text_by_id` / `hover_by_id` call of action `k`;
`navOk k` of its `driver.get`; `actionUrl k` is `driver.current_url` after
action `k`; `raw k` the `_process_page` data for action `k` (`none` =
processing failed); `seedRaw` likewise for the start URL.  `stamp j`,
`scroll j`, `forms j`, `iso j` are the `timestamp_str()`,
`window.pageYOffset`, form-value and `datetime.now()` draws of the `j`-th
`_create_page_state` call (`j = 0` for the seed). -/
structure IEnv where
  seedRaw : Option PageRaw
  decide : Nat → Option ActionDecision
  shouldCont : Nat → Bool
  domOk : Nat → Bool
  navOk : Nat → Bool
  actionUrl : Nat → String
  raw : Nat → Option PageRaw
  stamp : Nat → String
  scroll : Nat → Int
  forms : Nat → List (String × String)
  iso : Nat → String
  dur : Nat → Nat
  graphIso : String := ""

/-- COUNTERFACTUAL (repaired) variant, not the source's behaviour:
`Action.from_decision` as defined in domain/actions.py:79-122, the variant
whose signature matches every call (it defaults `element_id` to `''`) and
whose `isinstance` branches match the decision classes the crawler handles.
The `Action` class the crawler actually imports is the domain/graph.py one,
whose `from_decision` raises for every decision — that faithful variant is
`actionFromDecisionGraphPy` below.  This repaired variant exists only for the
supplementary intent conjuncts of the C5 theorem. -/
def actionFromDecision (actionId : String) (iso : String) (dur : Nat)
    (success : Bool) (d : ActionDecision) : GAction :=
  match d with
  | .click eid =>
    { action_id := actionId, action_type := .click, element_id := eid
      timestamp := iso, duration := dur, success := success }
  | .inputText eid v =>
    { action_id := actionId, action_type := .input, element_id := eid
      timestamp := iso, duration := dur, success := success
      input_value := some v }
  | .hover eid =>
    { action_id := actionId, action_type := .hover, element_id := eid
      timestamp := iso, duration := dur, success := success }
  | .scroll pos =>
    { action_id := actionId, action_type := .scroll, element_id := ""
      timestamp := iso, duration := dur, success := success
      scroll_position := some pos }
  | .navigate url =>
    { action_id := actionId, action_type := .navigate, element_id := ""
      timestamp := iso, duration := dur, success := success
      url := some url }

/-- The module defining the class of each decision the crawler dispatches.
`interactive_crawler.py:17` and the shipped `HumanDecisionMaker` build the
decision dataclasses of `crawler/domain/actions.py`, so every decision that
reaches `_execute_action`'s `isinstance` dispatch (which also tests the
actions.py classes) is an actions.py instance. -/
def decisionClassModule : ActionDecision → String :=
  fun _ => "crawler.domain.actions"

/-- The module whose decision classes `domain/graph.py`'s
`Action.from_decision` tests with `isinstance`: graph.py:5 imports them from
`crawler/domain/decisions.py`.  Same class names, different classes. -/
def fromDecisionBranchModule : String := "crawler.domain.decisions"

/-- `Action.from_decision` as the crawler actually resolves it:
interactive_crawler.py:15 imports `Action` from domain/graph.py, whose
`from_decision` (graph.py:34-76) `isinstance`-checks the decision classes
imported from domain/decisions.py, while the decisions the crawler dispatches
are instances of the classes of domain/actions.py.  `isinstance` against a
same-named class of a different module is `False`, so no branch matches and
the trailing `else` raises `ValueError("Unsupported action decision type")`.
(Had a branch matched, the Scroll and Navigate bodies would still raise
`TypeError`: graph.py's variant omits the required `element_id` argument
there.)  Class identity is modelled by the defining module of the decision. -/
def actionFromDecisionGraphPy (actionId : String) (iso : String) (dur : Nat)
    (success : Bool) (d : ActionDecision) : Except String GAction :=
  if decisionClassModule d = fromDecisionBranchModule then
    match d with
    | .click eid =>
      Except.ok
        { action_id := actionId, action_type := .click, element_id := eid
          timestamp := iso, duration := dur, success := success }
    | .inputText eid v =>
      Except.ok
        { action_id := actionId, action_type := .input, element_id := eid
          timestamp := iso, duration := dur, success := success
          input_value := some v }
    | .hover eid =>
      Except.ok
        { action_id := actionId, action_type := .hover, element_id := eid
          timestamp := iso, duration := dur, success := success }
    | .scroll _ =>
      Except.error
        "TypeError: __init__() missing 1 required positional argument"
    | .navigate _ =>
      Except.error
        "TypeError: __init__() missing 1 required positional argument"
  else Except.error "ValueError: Unsupported action decision type"

/-- COUNTERFACTUAL (repaired) variant, not the source's behaviour:
`_execute_action` (interactive_crawler.py:166-220) with the two class slips
repaired (`Action.from_decision` resolved to the actions.py variant and
`PageState` to the actions.py class), so that a click / input / hover /
navigate whose DOM step and page re-processing succeed yields a new state.
The faithful embedding is `execActionStrict` below, on which every action
fails.  This variant exists only for the supplementary intent conjuncts of
the C5 theorem. -/
def execAction (env : IEnv) (k : Nat) (d : ActionDecision) :
    Option (ActPageState × GAction) :=
  let domSuccess :=
    match d with
    | .click _ => env.domOk k
    | .inputText _ _ => env.domOk k
    | .hover _ => env.domOk k
    | .scroll _ => false
    | .navigate _ => env.navOk k
  if domSuccess then
    match env.raw k with
    | none => none
    | some r =>
      let page := mkPage (env.actionUrl k) r
      let act := actionFromDecision ("action_" ++ env.stamp (k + 1))
        (env.iso (k + 1)) (env.dur k) true d
      some (mkPageState (env.stamp (k + 1)) (env.iso (k + 1))
        (env.scroll (k + 1)) (env.forms (k + 1)) page, act)
  else none

/-- `_execute_action` (interactive_crawler.py:166-220) as executed: the whole
body sits in a `try/except` that returns `(False, None, None)` on any
exception.

* click / input / hover dispatch to `dom_actions.*_by_id` (`domOk`);
* scroll reads `action.element_id`, an attribute `ScrollAction` does not
  have, so the access raises `AttributeError`, caught → failure;
* navigate calls `driver.get` (`navOk`) and sets `action_success = True`;
* on DOM success the code re-processes `driver.current_url` (`raw`), then
  calls `Action.from_decision` — the graph.py variant, which raises
  `ValueError` for every decision (`actionFromDecisionGraphPy`), caught →
  failure — and would then call `_create_page_state`, whose `TypeError` is
  also caught here.

Hence every action, of every kind, returns `(False, None, None)`. -/
def execActionStrict (env : IEnv) (k : Nat) (d : ActionDecision) :
    Option (ActPageState × GAction) :=
  let domSuccess :=
    match d with
    | .click _ => env.domOk k
    | .inputText _ _ => env.domOk k
    | .hover _ => env.domOk k
    | .scroll _ => false
    | .navigate _ => env.navOk k
  if domSuccess then
    match env.raw k with
    | none => none
    | some r =>
      let page := mkPage (env.actionUrl k) r
      match actionFromDecisionGraphPy ("action_" ++ env.stamp (k + 1))
        (env.iso (k + 1)) (env.dur k) true d with
      | Except.error _ => none
      | Except.ok act =>
        match createPageState (env.stamp (k + 1)) (env.iso (k + 1))
          (env.scroll (k + 1)) (env.forms (k + 1)) page with
        | Except.error _ => none
        | Except.ok st => some (st, act)
  else none

/-- The loop state of `InteractiveCrawler.crawl`: the graph, the current
state, the iteration counter, and a ghost trace of the executed actions with
their success flag. -/
structure ILoopState where
  graph : CrawlGraphM ActPageState
  current : ActPageState
  k : Nat
  trace : List (ActionDecision × Bool)

/-- COUNTERFACTUAL (repaired) variant: the `while True:` loop of
`InteractiveCrawler.crawl` (interactive_crawler.py:70-97) over the repaired
`execAction`, run for at most `fuel` iterations.  A `none` decision breaks;
on success the new state and an edge `(current → new, action, weight 1.0,
transition_time = duration)` are added and the new state becomes current; in
*both* cases the loop then consults `should_continue_exploration` and breaks
if it answers `False`.  The faithful loop is `intLoopRunStrict` below; this
variant exists only for the supplementary intent conjuncts of the C5
theorem. -/
def intLoopRun (env : IEnv) : Nat → ILoopState → ILoopState
  | 0, s => s
  | fuel + 1, s =>
    match env.decide s.k with
    | none => s
    | some d =>
      let s' :=
        match execAction env s.k d with
        | some (st, act) =>
          let g1 := s.graph.add_state st
          let g2 := g1.add_edge
            ⟨s.current.state_id, st.state_id, act, 1, act.duration⟩
          { graph := g2, current := st, k := s.k + 1
            trace := s.trace ++ [(d, true)] }
        | none =>
          { s with k := s.k + 1, trace := s.trace ++ [(d, false)] }
      if env.shouldCont s.k then intLoopRun env fuel s' else s'

/-- The `while True:` loop of `InteractiveCrawler.crawl`
(interactive_crawler.py:70-97) as executed, over the faithful
`execActionStrict`: same structure as `intLoopRun`, but since every action
execution fails, the `if success and new_state:` block never runs — the
graph and the current state never change, and every trace entry records a
failure. -/
def intLoopRunStrict (env : IEnv) : Nat → ILoopState → ILoopState
  | 0, s => s
  | fuel + 1, s =>
    match env.decide s.k with
    | none => s
    | some d =>
      let s' :=
        match execActionStrict env s.k d with
        | some (st, act) =>
          let g1 := s.graph.add_state st
          let g2 := g1.add_edge
            ⟨s.current.state_id, st.state_id, act, 1, act.duration⟩
          { graph := g2, current := st, k := s.k + 1
            trace := s.trace ++ [(d, true)] }
        | none =>
          { s with k := s.k + 1, trace := s.trace ++ [(d, false)] }
      if env.shouldCont s.k then intLoopRunStrict env fuel s' else s'

/-- The empty graph `CrawlGraph(start_url=start_url, pages={}, states={},
edges=[])` that `crawl` begins with (interactive_crawler.py:55). -/
def interactiveInitGraph (env : IEnv) (startUrl : String) :
    CrawlGraphM ActPageState :=
  { start_url := startUrl, pages := [], states := [], edges := []
    timestamp := env.graphIso, visited_states := [] }

/-- COUNTERFACTUAL (repaired) variant, not the source's behaviour:
`InteractiveCrawler.crawl` with the class slips repaired (`PageState` and
`Action.from_decision` resolved to the domain/actions.py definitions whose
shapes match their call sites), so that the seed state creation succeeds and
the loop runs.  The crawl as executed is `interactiveCrawlStrict` below (it
raises `TypeError` at the seed).  This variant exists only for the
supplementary intent conjuncts of the C5 theorem, showing the claimed
2-states/1-edge arithmetic is the evident intent of the broken code. -/
def interactiveCrawlIntended (env : IEnv) (startUrl : String) (fuel : Nat) :
    CrawlGraphM ActPageState × List (ActionDecision × Bool) :=
  match env.seedRaw with
  | none => (interactiveInitGraph env startUrl, [])
  | some r =>
    let page := mkPage startUrl r
    let g1 := (interactiveInitGraph env startUrl).add_page page
    let st0 := mkPageState (env.stamp 0) (env.iso 0) (env.scroll 0)
      (env.forms 0) page
    let g2 := g1.add_state st0
    let fin := intLoopRun env fuel ⟨g2, st0, 0, []⟩
    (fin.graph, fin.trace)

/-- `InteractiveCrawler.crawl` as executed: the seed
`self._create_page_state(page)` call (interactive_crawler.py:66) stands
outside any `try`, so its `TypeError` propagates out of `crawl`. -/
def interactiveCrawlStrict (env : IEnv) (startUrl : String) (fuel : Nat) :
    Except String (CrawlGraphM ActPageState) :=
  match env.seedRaw with
  | none => Except.ok (interactiveInitGraph env startUrl)
  | some r =>
    let page := mkPage startUrl r
    let g1 := (interactiveInitGraph env startUrl).add_page page
    match createPageState (env.stamp 0) (env.iso 0) (env.scroll 0)
      (env.forms 0) page with
    | Except.error e => Except.error e
    | Except.ok st0 =>
      Except.ok
        (intLoopRunStrict env fuel ⟨g1.add_state st0, st0, 0, []⟩).graph

/-- Every value `self.graph` takes during one `InteractiveCrawler.crawl`
call, in order ("at every point" of the crawl), under the faithful
semantics:

* seed processing failure: the crawl returns the initial empty graph;
* seed success: `add_page` yields the one-page graph, after which the seed
  `_create_page_state` call raises (`createPageState` is `Except.error`, see
  C5), so the `TypeError` propagates and no further graph value is created;
* the `Except.ok` continuation (which would record the loop's graphs) is
  kept for structural faithfulness but is unreachable. -/
def interactiveCrawlStrictGraphs (env : IEnv) (startUrl : String)
    (fuel : Nat) : List (CrawlGraphM ActPageState) :=
  match env.seedRaw with
  | none => [interactiveInitGraph env startUrl]
  | some r =>
    let page := mkPage startUrl r
    let g0 := interactiveInitGraph env startUrl
    let g1 := g0.add_page page
    match createPageState (env.stamp 0) (env.iso 0) (env.scroll 0)
      (env.forms 0) page with
    | Except.error _ => [g0, g1]
    | Except.ok st0 =>
      [g0, g1] ++
        (List.range (fuel + 1)).map (fun n =>
          (intLoopRunStrict env n ⟨g1.add_state st0, st0, 0, []⟩).graph)

/-! ## Auxiliary definitions used by the verification -/

/-- Cumulative enumeration of the urls reachable in at most `k` hops:
`Rlist` gives a concrete finite list containing exactly the urls satisfying
`ReachN` (shown below), used to bound the crawl's work. -/
def Rlist (links : String → List String) (start : String) :
    Nat → List String
  | 0 => [start]
  | k + 1 => Rlist links start k ++ (Rlist links start k).flatMap links

/-- Termination measure of the BFS loop: pending queue entries plus the work
still creatable by unvisited reachable pages. -/
def bfsMeasure (links : String → List String) (d : Nat) (start : String)
    (s : BfsState) : Nat :=
  s.queue.length +
    2 * (((Rlist links start d).dedup.filter (fun u => u ∉ s.visited)).map
      (fun u => 1 + (links u).length)).sum

/-- The loop invariant of `BaseCrawler.crawl` (with every visit succeeding).
`trace` is the ghost visit log; `d` the depth bound. -/
structure BfsInv (links : String → List String) (d : Nat) (start : String)
    (s : BfsState) : Prop where
  queueReach : ∀ p ∈ s.queue, p.2 ≤ d ∧ ReachN links start p.2 p.1
  traceReach : ∀ p ∈ s.trace, p.2 ≤ d ∧ ReachN links start p.2 p.1
  visitedTrace : ∀ u, u ∈ s.visited ↔ u ∈ s.trace.map Prod.fst
  traceNodup : (s.trace.map Prod.fst).Nodup
  queueShape : ∃ j qa qb, s.queue = qa ++ qb ∧ (∀ p ∈ qa, p.2 = j) ∧
    ∀ p ∈ qb, p.2 = j + 1
  traceLeQueue : ∀ p ∈ s.trace, ∀ q ∈ s.queue, p.2 ≤ q.2
  succClosed : ∀ p ∈ s.trace, p.2 < d → ∀ v ∈ links p.1,
    (∃ j, (v, j) ∈ s.trace ∧ j ≤ p.2 + 1) ∨
      ∃ j, (v, j) ∈ s.queue ∧ j ≤ p.2 + 1
  startCovered : (start, 0) ∈ s.trace ∨
    s.queue = [(start, 0)] ∧ s.visited = []

/-- Insertion-order deduplication (first occurrence kept), an iteration order
a Python set could use. -/
def dedupFirstAux (seen : List String) : List String → List String
  | [] => []
  | x :: rest =>
    if x ∈ seen then dedupFirstAux seen rest
    else x :: dedupFirstAux (x :: seen) rest

def dedupFirst (xs : List String) : List String :=
  dedupFirstAux [] xs

/-- Decimal value of a digit character. -/
def charVal (c : Char) : Nat := c.toNat - '0'.toNat

/-- Decimal value of a digit string, the left inverse of `Nat.repr` used to
prove element-id injectivity. -/
def charsVal (cs : List Char) : Nat :=
  cs.foldl (fun a c => 10 * a + charVal c) 0

/-- Referential integrity of a graph's edges: every edge endpoint is a key of
the state map. -/
def EdgeRefInv (g : CrawlGraphM ActPageState) : Prop :=
  ∀ e ∈ g.edges, e.source_state_id ∈ dictKeys g.states ∧
    e.target_state_id ∈ dictKeys g.states

/-- `g'` extends `g` append-only: no page or state key and no edge is ever
removed. -/
def graphExtends (g g' : CrawlGraphM ActPageState) : Prop :=
  (∀ u ∈ dictKeys g.pages, u ∈ dictKeys g'.pages) ∧
  (∀ u ∈ dictKeys g.states, u ∈ dictKeys g'.states) ∧
  ∃ t, g'.edges = g.edges ++ t

/-- Referential integrity of a graph's states: every state's `page_id` is a
key of the page map. -/
def PageRefInv (g : CrawlGraphM ActPageState) : Prop :=
  ∀ p ∈ g.states, p.2.page_id ∈ dictKeys g.pages

/-! ### Concrete inputs used by the per-claim witnesses and counterexamples -/

/-- A page with one entry everywhere (C1 failing input). -/
def pageC1 : PageM :=
  { page_id := "page_A"
    metadata :=
      { url := "http://A", title := "A", timestamp := "2025-01-01T00:00:00"
        total_height := 10, total_width := 10, load_time := 1
        viewport_height := 5, viewport_width := 5 }
    screenshots := []
    interactive_elements := [] }

/-- A `CrawlGraph` holding one page: the C1 failing input. -/
def gOnePageC1 : CrawlGraphM GPageState :=
  { start_url := "http://A", pages := [("page_A", pageC1)], states := []
    edges := [], timestamp := "2025-01-01T00:00:00", visited_states := [] }

/-- A `CrawlGraph` with empty pages, states and edges (the only shape that
survives `from_dict`). -/
def gEmptyC1 : CrawlGraphM GPageState :=
  { start_url := "http://A", pages := [], states := [], edges := []
    timestamp := "2025-01-01T00:00:00", visited_states := ["s1"] }

/-- C4 failing input: `A` links to `B` and `P`, `B` links to `P` — `P` is
linked from both `A` and `B`, which are both visited. -/
def siteC4 : String → List String := fun u =>
  if u = "A" then ["B", "P"] else if u = "B" then ["P"] else []

/-- A raw page with nothing on it. -/
def rawEmptyPage : PageRaw :=
  { title := "A", screenshots := [], elements := [] }

/-- C5 scenario environment: seed processes successfully, the decision maker
returns one `ClickAction` and then `None`, the click and the re-processing
succeed. -/
def envC5 : IEnv :=
  { seedRaw := some rawEmptyPage
    decide := fun k => if k = 0 then some (.click "buttons_1") else none
    shouldCont := fun _ => true
    domOk := fun _ => true
    navOk := fun _ => true
    actionUrl := fun _ => "http://A"
    raw := fun _ => some rawEmptyPage
    stamp := fun j => Nat.repr j
    scroll := fun _ => 0
    forms := fun _ => []
    iso := fun _ => ""
    dur := fun _ => 0 }

/-- C8 input: page `A`'s links are discovered in the order `B`, `C`. -/
def extractC8 : String → List String := fun u =>
  if u = "A" then ["B", "C"] else []

/-- A valid iteration order for a Python set that differs from insertion
order: reversed first-occurrence deduplication. -/
def revOrder (xs : List String) : List String :=
  (dedupFirst xs).reverse

/-- C9 input: one category containing one visible button. -/
def scanC9 : List (String × Option (List RawElem)) :=
  [("buttons", some [{ visible := true, tag_name := "button", text := "Go" }])]

/-- C10 witness input: one page, one state, one edge. -/
def stC10 : GPageState :=
  { state_id := "s1", page_id := "page_A", timestamp := ""
    form_values := [], scroll_position := 0 }

def actC10 : GAction :=
  { action_id := "a1", action_type := .click, element_id := "buttons_1"
    timestamp := "", duration := 1, success := true }

def edgeC10 : GEdge :=
  { source_state_id := "s1", target_state_id := "s1", action := actC10
    weight := 1, transition_time := 1 }

def opsC10 : List GraphOp :=
  [GraphOp.addPage pageC1, GraphOp.addState stC10, GraphOp.addEdge edgeC10]

/-- C3 witness site: `A` links to `B`. -/
def siteC3 : String → List String := fun u =>
  if u = "A" then ["B"] else []

/-! # Theorems -/

/-! ## Dict / set lemmas -/

theorem mem_setAdd (s : List String) (x u : String) :
    u ∈ setAdd s x ↔ u ∈ s ∨ u = x := by
  unfold setAdd
  by_cases h : x ∈ s <;> simp [h]
  rintro rfl
  exact h

theorem mem_dictKeys_insert {α : Type} (d : List (String × α)) (k : String)
    (v : α) (u : String) :
    u ∈ dictKeys (dictInsert d k v) ↔ u ∈ dictKeys d ∨ u = k := by
  induction d with
  | nil => simp [dictInsert, dictKeys]
  | cons p rest ih =>
    obtain ⟨k', v'⟩ := p
    by_cases h : k' = k
    · subst h
      simp [dictInsert, dictKeys]
      tauto
    · simp [dictInsert, h, dictKeys] at ih ⊢
      rw [ih]
      tauto

/-! ## C1 — CrawlGraph serialization round-trip -/

/-- **C1** (code_bug evaluation).  The claim says `from_dict ∘ to_dict` is the
identity on every `CrawlGraph`.  On the graph `gOnePageC1`, which holds a
single page, `CrawlGraph.from_dict` instead raises `AttributeError`, because
it calls `Page.from_dict` and `domain.page.Page` defines no such method (the
same holds for `PageState.from_dict` and `Edge.from_dict` on the classes
`graph.py` refers to).  Only a graph with empty `pages`, `states` and `edges`
round-trips. -/
theorem c1_roundtrip_crashes_on_nonempty_graph :
    CrawlGraphM.from_dict (CrawlGraphM.to_dict gOnePageC1) =
      Except.error
        "AttributeError: type object Page has no attribute from_dict" ∧
    CrawlGraphM.from_dict (CrawlGraphM.to_dict gOnePageC1) ≠
      Except.ok gOnePageC1 ∧
    CrawlGraphM.from_dict (CrawlGraphM.to_dict gEmptyC1) =
      Except.ok gEmptyC1 := by
  refine ⟨rfl, ?_, rfl⟩
  intro h
  rw [show CrawlGraphM.from_dict (CrawlGraphM.to_dict gOnePageC1) =
    Except.error
      "AttributeError: type object Page has no attribute from_dict" from rfl]
    at h
  exact Except.noConfusion h

/-! ## C2 — page-visit retry bound -/

/-- **C2** (code_bug evaluation).  With a driver timing out on every
navigation attempt, `BFSCrawler._visit_url` makes exactly 3 navigation
attempts and reports exactly one terminal error `"Timeout after 3 attempts"`,
as the claim states; but `InteractiveCrawler._visit_url` — also named by the
claim — returns failure after exactly **1** attempt with **no** report,
because its `_load_page` catches the timeout itself and the retrying
`except TimeoutException` clause is unreachable. -/
theorem c2_retry_bound_divergence :
    bfsVisitUrl (fun _ => .timeout) (fun _ => true) =
      ⟨false, 3, ["Timeout after 3 attempts"]⟩ ∧
    intVisitUrl (fun _ => .timeout) = ⟨false, 1, []⟩ ∧
    ¬ ((intVisitUrl (fun _ => .timeout)).navAttempts = 3 ∧
      (intVisitUrl (fun _ => .timeout)).reports =
        ["Timeout after 3 attempts"]) := by
  refine ⟨rfl, rfl, ?_⟩
  decide

/-! ## C4 — referrer completeness -/

/-- **C4** (code_bug evaluation).  Site: `A → [B, P]`, `B → [P]`,
`max_depth = 2`, every visit succeeding.  `P` is linked from the successfully
visited pages `A` and `B`, yet after the crawl `referrers["P"]` is `{"A"}` —
and the `"A"` is only the `start_url` fallback of `_update_referrers`, which
records `list(queue)[-1][0]` (the most recently enqueued url) instead of the
page that linked to `P`.  `"B"` is missing, refuting the claim. -/
theorem c4_referrers_miss_linking_page :
    (crawlRun siteC4 (fun _ => true) 2 "A" 10 (crawlInit "A")).queue = [] ∧
    dictLookup
      (crawlRun siteC4 (fun _ => true) 2 "A" 10 (crawlInit "A")).referrers
      "P" = some ["A"] ∧
    "B" ∉ (dictLookup
      (crawlRun siteC4 (fun _ => true) 2 "A" 10 (crawlInit "A")).referrers
      "P").getD [] := by
  refine ⟨rfl, rfl, ?_⟩
  decide

/-! ## C5 — interactive state accounting -/

/-- **C5** (code_bug evaluation).  In the scenario of the claim (seed page
processed successfully, decision maker returns one `ClickAction` and then
`None`, the click succeeds), `InteractiveCrawler.crawl` as written raises
`TypeError` at the *seed* `_create_page_state` call — the constructor passes
`url=`, `screenshot_paths=`, `interactive_elements=`,
`current_scroll_position=` and `page_title=` to the `PageState` class
imported from `domain/graph.py`, which accepts none of them — so no graph
with 2 states is ever produced.  On the `PageState` class whose fields match
the call (domain/actions.py), the crawl would end with exactly 2 states and 1
edge, confirming the claim's arithmetic is the intent. -/
theorem c5_crawl_raises_type_error :
    interactiveCrawlStrict envC5 "http://A" 10 =
      Except.error
        "TypeError: __init__() got an unexpected keyword argument url" ∧
    createPageStateAccepted = false ∧
    (interactiveCrawlIntended envC5 "http://A" 10).1.states.length = 2 ∧
    (interactiveCrawlIntended envC5 "http://A" 10).1.edges.length = 1 := by
  refine ⟨rfl, rfl, ?_, ?_⟩ <;> decide

-- === BFS machinery scratch ===

theorem reachN_succ_of {links : String → List String} {start : String}
    {k : Nat} {u : String} (h : ReachN links start k u) :
    ReachN links start (k + 1) u := Or.inl h

theorem reachN_mono {links : String → List String} {start : String}
    {k k' : Nat} (hk : k ≤ k') {u : String} (h : ReachN links start k u) :
    ReachN links start k' u := by
  induction hk with
  | refl => exact h
  | step _ ih => exact Or.inl ih

theorem reachN_congr {links links' : String → List String}
    (hmem : ∀ w v, v ∈ links w ↔ v ∈ links' w) (start : String) (k : Nat)
    (u : String) : ReachN links start k u ↔ ReachN links' start k u := by
  induction k generalizing u with
  | zero => exact Iff.rfl
  | succ k ih =>
    constructor
    · rintro (h | ⟨w, hw, hv⟩)
      · exact Or.inl ((ih u).1 h)
      · exact Or.inr ⟨w, (ih w).1 hw, (hmem w u).1 hv⟩
    · rintro (h | ⟨w, hw, hv⟩)
      · exact Or.inl ((ih u).2 h)
      · exact Or.inr ⟨w, (ih w).2 hw, (hmem w u).2 hv⟩

theorem mem_Rlist_iff (links : String → List String) (start : String)
    (k : Nat) (u : String) :
    u ∈ Rlist links start k ↔ ReachN links start k u := by
  induction k generalizing u with
  | zero => simp [Rlist, ReachN]
  | succ k ih =>
    simp only [Rlist, List.mem_append, List.mem_flatMap, ReachN]
    constructor
    · rintro (h | ⟨w, hw, hv⟩)
      · exact Or.inl (ih u |>.1 h)
      · exact Or.inr ⟨w, ih w |>.1 hw, hv⟩
    · rintro (h | ⟨w, hw, hv⟩)
      · exact Or.inl (ih u |>.2 h)
      · exact Or.inr ⟨w, ih w |>.2 hw, hv⟩

theorem bfsInv_init (links : String → List String) (d : Nat) (start : String) :
    BfsInv links d start (crawlInit start) := by
  constructor
  · rintro p hp
    simp [crawlInit] at hp
    subst hp
    exact ⟨Nat.zero_le d, rfl⟩
  · rintro p hp
    simp [crawlInit] at hp
  · intro u
    simp [crawlInit]
  · simp [crawlInit]
  · exact ⟨0, [(start, 0)], [], by simp [crawlInit], by simp, by simp⟩
  · rintro p hp
    simp [crawlInit] at hp
  · rintro p hp
    simp [crawlInit] at hp
  · exact Or.inr ⟨rfl, rfl⟩

theorem queueShape_head_bounds {s : BfsState} {u₀ : String} {j₀ : Nat}
    {rest : List (String × Nat)}
    (hshape : ∃ j qa qb, s.queue = qa ++ qb ∧ (∀ p ∈ qa, p.2 = j) ∧
      ∀ p ∈ qb, p.2 = j + 1)
    (hq : s.queue = (u₀, j₀) :: rest) :
    ∀ p ∈ rest, j₀ ≤ p.2 ∧ p.2 ≤ j₀ + 1 := by
  obtain ⟨j, qa, qb, heq, ha, hb⟩ := hshape
  rw [hq] at heq
  match qa, heq with
  | [], heq =>
    simp at heq
    have hhead : j₀ = j + 1 := by
      have := hb (u₀, j₀) (by rw [← heq]; exact List.mem_cons_self _ _)
      simpa using this
    intro p hp
    have : p.2 = j + 1 := hb p (by rw [← heq]; exact List.mem_cons_of_mem _ hp)
    omega
  | a :: qa', heq =>
    simp at heq
    obtain ⟨rfl, heq⟩ := heq
    have hj : j₀ = j := by simpa using ha (u₀, j₀) (List.mem_cons_self _ _)
    intro p hp
    rw [heq] at hp
    rcases List.mem_append.1 hp with h | h
    · have := ha p (List.mem_cons_of_mem _ h)
      omega
    · have := hb p h
      omega

theorem bfsInv_step_visited {links : String → List String} {d : Nat}
    {start : String} {s : BfsState} {u₀ : String} {j₀ : Nat}
    {rest : List (String × Nat)} (r : List (String × List String))
    (hq : s.queue = (u₀, j₀) :: rest) (hv : u₀ ∈ s.visited)
    (hinv : BfsInv links d start s) :
    BfsInv links d start { s with queue := rest, referrers := r } := by
  have hheadq : (u₀, j₀) ∈ s.queue := by rw [hq]; exact List.mem_cons_self _ _
  constructor
  · intro p hp
    exact hinv.queueReach p (by rw [hq]; exact List.mem_cons_of_mem _ hp)
  · exact hinv.traceReach
  · exact hinv.visitedTrace
  · exact hinv.traceNodup
  · obtain ⟨j, qa, qb, heq, ha, hb⟩ := hinv.queueShape
    rw [hq] at heq
    match qa, heq with
    | [], heq =>
      simp at heq
      refine ⟨j + 1, rest, [], by simp, ?_, by simp⟩
      intro p hp
      exact hb p (by rw [← heq]; exact List.mem_cons_of_mem _ hp)
    | a :: qa', heq =>
      simp at heq
      obtain ⟨rfl, heq⟩ := heq
      exact ⟨j, qa', qb, heq, fun p hp => ha p (List.mem_cons_of_mem _ hp), hb⟩
  · intro p hp q hqq
    exact hinv.traceLeQueue p hp q (by rw [hq]; exact List.mem_cons_of_mem _ hqq)
  · intro p hp hlt v hvls
    rcases hinv.succClosed p hp hlt v hvls with ⟨j, hmem, hle⟩ | ⟨j, hmem, hle⟩
    · exact Or.inl ⟨j, hmem, hle⟩
    · rw [hq] at hmem
      rcases List.mem_cons.1 hmem with hhd | htl
      · have hvu : v = u₀ := congrArg Prod.fst hhd
        have hju : j = j₀ := congrArg Prod.snd hhd
        subst hvu
        have : v ∈ s.trace.map Prod.fst := (hinv.visitedTrace v).1 hv
        obtain ⟨pv, hpv, hfst⟩ := List.mem_map.1 this
        refine Or.inl ⟨pv.2, ?_, ?_⟩
        · rw [← hfst]; exact hpv
        · have := hinv.traceLeQueue pv hpv (v, j₀) (hfst ▸ hheadq)
          omega
      · exact Or.inr ⟨j, htl, hle⟩
  · rcases hinv.startCovered with h | ⟨_, hvis⟩
    · exact Or.inl h
    · rw [hvis] at hv
      exact absurd hv (List.not_mem_nil _)

theorem bfsInv_step_unvisited {links : String → List String} {d : Nat}
    {start : String} {s : BfsState} {u₀ : String} {j₀ : Nat}
    {rest : List (String × Nat)} (g' : List (String × List String))
    (hq : s.queue = (u₀, j₀) :: rest) (hv : u₀ ∉ s.visited)
    (hinv : BfsInv links d start s) :
    BfsInv links d start
      { s with
        queue := rest ++
          (if j₀ < d then
            ((links u₀).filter (fun l => l ∉ u₀ :: s.visited)).map
              (fun l => (l, j₀ + 1))
          else [])
        visited := u₀ :: s.visited
        graph := g'
        trace := s.trace ++ [(u₀, j₀)] } := by
  set enq :=
    (if j₀ < d then
      ((links u₀).filter (fun l => l ∉ u₀ :: s.visited)).map
        (fun l => (l, j₀ + 1))
    else []) with henq
  have hheadq : (u₀, j₀) ∈ s.queue := by rw [hq]; exact List.mem_cons_self _ _
  have hhead := hinv.queueReach (u₀, j₀) hheadq
  have hbounds := queueShape_head_bounds hinv.queueShape hq
  have hEnqMem : ∀ p ∈ enq, p.2 = j₀ + 1 ∧ p.1 ∈ links u₀ ∧ j₀ < d := by
    intro p hp
    rw [henq] at hp
    by_cases hd' : j₀ < d
    · rw [if_pos hd'] at hp
      obtain ⟨l, hl, rfl⟩ := List.mem_map.1 hp
      exact ⟨rfl, (List.mem_filter.1 hl).1, hd'⟩
    · rw [if_neg hd'] at hp
      exact absurd hp (List.not_mem_nil _)
  have hEnqCover : j₀ < d → ∀ v ∈ links u₀, v ∉ u₀ :: s.visited →
      (v, j₀ + 1) ∈ enq := by
    intro hd' v hvl hnv
    rw [henq, if_pos hd']
    exact List.mem_map.2 ⟨v, List.mem_filter.2 ⟨hvl, by simpa using hnv⟩, rfl⟩
  have hu₀trace : u₀ ∉ s.trace.map Prod.fst := fun hmem =>
    hv ((hinv.visitedTrace u₀).2 hmem)
  constructor
  · intro p hp
    rcases List.mem_append.1 hp with hpr | hpe
    · exact hinv.queueReach p (by rw [hq]; exact List.mem_cons_of_mem _ hpr)
    · obtain ⟨hdep, hlnk, hd'⟩ := hEnqMem p hpe
      refine ⟨by omega, ?_⟩
      rw [hdep]
      exact Or.inr ⟨u₀, hhead.2, hlnk⟩
  · intro p hp
    rcases List.mem_append.1 hp with hpt | hpn
    · exact hinv.traceReach p hpt
    · simp at hpn
      rw [hpn]
      exact hhead
  · intro u
    simp only [List.map_append, List.map_cons, List.map_nil, List.mem_append,
      List.mem_cons, List.not_mem_nil, or_false]
    rw [← hinv.visitedTrace u]
    tauto
  · simp only [List.map_append, List.map_cons, List.map_nil]
    rw [List.nodup_append]
    refine ⟨hinv.traceNodup, List.nodup_singleton _, ?_⟩
    intro a ha hb
    simp at hb
    rw [hb] at ha
    exact hu₀trace ha
  · obtain ⟨j, qa, qb, heq, ha, hb⟩ := hinv.queueShape
    rw [hq] at heq
    match qa, heq with
    | [], heq =>
      simp at heq
      have hh : j₀ = j + 1 := by
        simpa using hb (u₀, j₀) (by rw [← heq]; exact List.mem_cons_self _ _)
      refine ⟨j + 1, rest, enq, rfl, ?_, ?_⟩
      · intro p hp
        exact hb p (by rw [← heq]; exact List.mem_cons_of_mem _ hp)
      · intro p hp
        have := (hEnqMem p hp).1
        omega
    | a :: qa', heq =>
      simp at heq
      obtain ⟨rfl, heq⟩ := heq
      have hj : j₀ = j := by simpa using ha (u₀, j₀) (List.mem_cons_self _ _)
      refine ⟨j, qa', qb ++ enq, by rw [heq, List.append_assoc], ?_, ?_⟩
      · intro p hp
        exact ha p (List.mem_cons_of_mem _ hp)
      · intro p hp
        rcases List.mem_append.1 hp with h | h
        · exact hb p h
        · have := (hEnqMem p h).1
          omega
  · intro p hp q hqq
    rcases List.mem_append.1 hp with hpt | hpn
    · rcases List.mem_append.1 hqq with hqr | hqe
      · exact hinv.traceLeQueue p hpt q
          (by rw [hq]; exact List.mem_cons_of_mem _ hqr)
      · have hle := hinv.traceLeQueue p hpt (u₀, j₀) hheadq
        have := (hEnqMem q hqe).1
        omega
    · simp at hpn
      have hp2 : p.2 = j₀ := by rw [hpn]
      rcases List.mem_append.1 hqq with hqr | hqe
      · have := (hbounds q hqr).1
        omega
      · have := (hEnqMem q hqe).1
        omega
  · intro p hp hlt v hvls
    rcases List.mem_append.1 hp with hpt | hpn
    · rcases hinv.succClosed p hpt hlt v hvls with ⟨j, hmem, hle⟩ | ⟨j, hmem, hle⟩
      · exact Or.inl ⟨j, List.mem_append_left _ hmem, hle⟩
      · rw [hq] at hmem
        rcases List.mem_cons.1 hmem with hhd | htl
        · have hvu : v = u₀ := congrArg Prod.fst hhd
          have hju : j = j₀ := congrArg Prod.snd hhd
          refine Or.inl ⟨j₀, ?_, by omega⟩
          rw [hvu]
          exact List.mem_append_right _ (by simp)
        · exact Or.inr ⟨j, List.mem_append_left _ htl, hle⟩
    · simp at hpn
      rw [hpn] at hlt hvls ⊢
      by_cases hvv : v ∈ u₀ :: s.visited
      · rcases List.mem_cons.1 hvv with rfl | hvin
        · exact Or.inl ⟨j₀, List.mem_append_right _ (by simp), by omega⟩
        · have : v ∈ s.trace.map Prod.fst := (hinv.visitedTrace v).1 hvin
          obtain ⟨pv, hpv, hfst⟩ := List.mem_map.1 this
          refine Or.inl ⟨pv.2, ?_, ?_⟩
          · rw [← hfst]
            exact List.mem_append_left _ hpv
          · have := hinv.traceLeQueue pv hpv (u₀, j₀) hheadq
            omega
      · exact Or.inr ⟨j₀ + 1, List.mem_append_right _ (hEnqCover hlt v hvls hvv),
          by omega⟩
  · rcases hinv.startCovered with h | ⟨hq', _⟩
    · exact Or.inl (List.mem_append_left _ h)
    · rw [hq'] at hq
      have h1 : u₀ = start := congrArg Prod.fst (List.head_eq_of_cons_eq hq.symm)
      have h2 : j₀ = 0 := congrArg Prod.snd (List.head_eq_of_cons_eq hq.symm)
      refine Or.inl (List.mem_append_right _ ?_)
      rw [h1, h2]
      simp

theorem bfsInv_step (links : String → List String) (ok : String → Bool)
    (d : Nat) (start : String) (hok : ∀ u, ok u = true) {s s' : BfsState}
    (hinv : BfsInv links d start s)
    (hstep : crawlStep links ok d start s = some s') :
    BfsInv links d start s' := by
  match hq : s.queue with
  | [] =>
    unfold crawlStep at hstep
    rw [hq] at hstep
    exact Option.noConfusion hstep
  | (u₀, j₀) :: rest =>
    unfold crawlStep at hstep
    rw [hq] at hstep
    dsimp only at hstep
    by_cases hv : u₀ ∈ s.visited
    · rw [if_pos hv] at hstep
      obtain rfl := Option.some.inj hstep
      exact bfsInv_step_visited _ hq hv hinv
    · rw [if_neg hv] at hstep
      simp only [hok u₀, if_true] at hstep
      obtain rfl := Option.some.inj hstep
      exact bfsInv_step_unvisited _ hq hv hinv

theorem filter_sum_drop (f : String → Nat) (vis : List String) (u₀ : String)
    (hnv : u₀ ∉ vis) :
    ∀ l : List String, l.Nodup → u₀ ∈ l →
      ((l.filter (fun u => u ∉ u₀ :: vis)).map f).sum + f u₀ =
        ((l.filter (fun u => u ∉ vis)).map f).sum := by
  intro l
  induction l with
  | nil => intro _ h; exact absurd h (List.not_mem_nil _)
  | cons x rest ih =>
    intro hnd hmem
    have hx_rest : x ∉ rest := (List.nodup_cons.1 hnd).1
    have hrest : rest.Nodup := (List.nodup_cons.1 hnd).2
    rcases List.mem_cons.1 hmem with rfl | hmem'
    · have hdrop : decide (u₀ ∉ u₀ :: vis) = false := by simp
      have hkeep : decide (u₀ ∉ vis) = true := by simpa using hnv
      rw [List.filter_cons, hdrop, List.filter_cons, hkeep]
      simp only [if_false, if_true, Bool.false_eq_true, List.map_cons,
        List.sum_cons]
      have hcongr : rest.filter (fun u => decide (u ∉ u₀ :: vis)) =
          rest.filter (fun u => decide (u ∉ vis)) := by
        apply List.filter_congr
        intro u hu
        have hne : u ≠ u₀ := fun h => hx_rest (h ▸ hu)
        simp [hne]
      rw [hcongr]
      omega
    · have hne : x ≠ u₀ := fun h => hx_rest (h ▸ hmem')
      by_cases hxv : x ∈ vis
      · have h1 : decide (x ∉ u₀ :: vis) = false := by simp [hxv]
        have h2 : decide (x ∉ vis) = false := by simpa using hxv
        rw [List.filter_cons, h1, List.filter_cons, h2]
        exact ih hrest hmem'
      · have h1 : decide (x ∉ u₀ :: vis) = true := by
          simp only [decide_eq_true_eq, List.mem_cons, not_or]
          exact ⟨hne, hxv⟩
        have h2 : decide (x ∉ vis) = true := by simpa using hxv
        rw [List.filter_cons, h1, List.filter_cons, h2]
        simp only [eq_self_iff_true, if_true, List.map_cons, List.sum_cons]
        have := ih hrest hmem'
        omega

theorem bfsMeasure_step (links : String → List String) (ok : String → Bool)
    (d : Nat) (start : String) (hok : ∀ u, ok u = true) {s s' : BfsState}
    (hinv : BfsInv links d start s)
    (hstep : crawlStep links ok d start s = some s') :
    bfsMeasure links d start s' < bfsMeasure links d start s := by
  match hq : s.queue with
  | [] =>
    unfold crawlStep at hstep
    rw [hq] at hstep
    exact Option.noConfusion hstep
  | (u₀, j₀) :: rest =>
    unfold crawlStep at hstep
    rw [hq] at hstep
    dsimp only at hstep
    by_cases hv : u₀ ∈ s.visited
    · rw [if_pos hv] at hstep
      obtain rfl := Option.some.inj hstep
      unfold bfsMeasure
      rw [hq]
      simp
    · rw [if_neg hv] at hstep
      simp only [hok u₀, if_true] at hstep
      obtain rfl := Option.some.inj hstep
      have hhead := hinv.queueReach (u₀, j₀)
        (by rw [hq]; exact List.mem_cons_self _ _)
      have hu₀R : u₀ ∈ (Rlist links start d).dedup :=
        List.mem_dedup.2 ((mem_Rlist_iff links start d u₀).2
          (reachN_mono hhead.1 hhead.2))
      have key := filter_sum_drop (fun u => 1 + (links u).length) s.visited u₀
        hv (Rlist links start d).dedup (List.nodup_dedup _) hu₀R
      have hlen :
          (if j₀ < d then
            ((links u₀).filter (fun l => l ∉ u₀ :: s.visited)).map
              (fun l => (l, j₀ + 1))
          else []).length ≤ (links u₀).length := by
        by_cases hd' : j₀ < d
        · rw [if_pos hd']
          rw [List.length_map]
          exact List.length_filter_le _ _
        · rw [if_neg hd']
          simp
      unfold bfsMeasure
      dsimp only
      rw [hq]
      simp only [List.length_cons, List.length_append]
      have key2 :
          (List.map (fun u => 1 + (links u).length)
            (List.filter (fun l => decide (l ∉ u₀ :: s.visited))
              (Rlist links start d).dedup)).sum +
            (1 + (links u₀).length) =
          (List.map (fun u => 1 + (links u).length)
            (List.filter (fun u => decide (u ∉ s.visited))
              (Rlist links start d).dedup)).sum := key
      omega

theorem crawl_terminates (links : String → List String) (ok : String → Bool)
    (d : Nat) (start : String) (hok : ∀ u, ok u = true) :
    ∀ (μ : Nat) (s : BfsState), BfsInv links d start s →
      bfsMeasure links d start s ≤ μ →
      ∃ n, (crawlRun links ok d start n s).queue = [] ∧
        BfsInv links d start (crawlRun links ok d start n s) := by
  intro μ
  induction μ with
  | zero =>
    intro s hinv hle
    have hempty : s.queue = [] := by
      unfold bfsMeasure at hle
      have : s.queue.length = 0 := by omega
      exact List.length_eq_zero.1 this
    exact ⟨0, hempty, hinv⟩
  | succ μ ih =>
    intro s hinv hle
    match hq : s.queue with
    | [] => exact ⟨0, hq, hinv⟩
    | (u₀, j₀) :: rest =>
      have hsome : ∃ s', crawlStep links ok d start s = some s' := by
        unfold crawlStep
        rw [hq]
        dsimp only
        by_cases hv : u₀ ∈ s.visited
        · rw [if_pos hv]
          exact ⟨_, rfl⟩
        · rw [if_neg hv]
          simp only [hok u₀, if_true]
          exact ⟨_, rfl⟩
      obtain ⟨s', hstep⟩ := hsome
      have hinv' := bfsInv_step links ok d start hok hinv hstep
      have hdec := bfsMeasure_step links ok d start hok hinv hstep
      obtain ⟨n, hempty, hinvf⟩ := ih s' hinv' (by omega)
      refine ⟨n + 1, ?_, ?_⟩
      · show (crawlRun links ok d start (n + 1) s).queue = []
        unfold crawlRun
        rw [hstep]
        exact hempty
      · show BfsInv links d start (crawlRun links ok d start (n + 1) s)
        unfold crawlRun
        rw [hstep]
        exact hinvf

theorem bfsInv_complete {links : String → List String} {d : Nat}
    {start : String} {s : BfsState} (hinv : BfsInv links d start s)
    (hempty : s.queue = []) :
    ∀ k, k ≤ d → ∀ u, ReachN links start k u →
      ∃ j, (u, j) ∈ s.trace ∧ j ≤ k := by
  intro k
  induction k with
  | zero =>
    intro _ u hu
    have hus : u = start := hu
    subst hus
    rcases hinv.startCovered with h | ⟨hq', _⟩
    · exact ⟨0, h, Nat.le_refl 0⟩
    · rw [hempty] at hq'
      exact List.noConfusion hq'
  | succ k ih =>
    intro hk u hu
    rcases hu with h | ⟨w, hw, hv⟩
    · obtain ⟨j, hj, hle⟩ := ih (by omega) u h
      exact ⟨j, hj, by omega⟩
    · obtain ⟨j, hj, hle⟩ := ih (by omega) w hw
      have hjd : j < d := by omega
      rcases hinv.succClosed (w, j) hj hjd u hv with ⟨j', hj', hle'⟩ |
        ⟨j', hj', _⟩
      · exact ⟨j', hj', by omega⟩
      · rw [hempty] at hj'
        exact absurd hj' (List.not_mem_nil _)

/-- The behaviour of `BaseCrawler.crawl` when every visit succeeds: the run
reaches an empty frontier, the visited set is exactly the set of urls
reachable from `start` in at most `d` hops, and no url is processed twice. -/
theorem crawl_characterization (links : String → List String) (d : Nat)
    (start : String) :
    ∃ n,
      (crawlRun links (fun _ => true) d start n (crawlInit start)).queue =
        [] ∧
      (∀ u,
        u ∈ (crawlRun links (fun _ => true) d start n
          (crawlInit start)).visited ↔ ReachN links start d u) ∧
      ((crawlRun links (fun _ => true) d start n
        (crawlInit start)).trace.map Prod.fst).Nodup := by
  obtain ⟨n, hempty, hinv⟩ := crawl_terminates links (fun _ => true) d start
    (fun _ => rfl) (bfsMeasure links d start (crawlInit start))
    (crawlInit start) (bfsInv_init links d start) (Nat.le_refl _)
  refine ⟨n, hempty, ?_, hinv.traceNodup⟩
  intro u
  constructor
  · intro hu
    obtain ⟨p, hp, hfst⟩ := List.mem_map.1 ((hinv.visitedTrace u).1 hu)
    have := hinv.traceReach p hp
    rw [← hfst]
    exact reachN_mono this.1 this.2
  · intro hu
    obtain ⟨j, hj, _⟩ := bfsInv_complete hinv hempty d (Nat.le_refl d) u hu
    exact (hinv.visitedTrace u).2 (List.mem_map.2 ⟨(u, j), hj, rfl⟩)

/-- **C3.**  For any site graph (`links` gives each page's outbound links in
the order the loop iterates them) and any depth bound `d`, with every visit
succeeding, `BaseCrawler.crawl` terminates with `self.visited` equal to the
set of pages reachable from `start` within `d` hops, and processes each page
at most once; and any `links₂` with the same per-page link *sets* (a tie
reordering) yields the same visited set. -/
theorem c3_bfs_visits_exactly_reachable (links links₂ : String → List String)
    (d : Nat) (start : String)
    (hsame : ∀ w v, v ∈ links w ↔ v ∈ links₂ w) :
    ∃ n m,
      (crawlRun links (fun _ => true) d start n (crawlInit start)).queue =
        [] ∧
      (crawlRun links₂ (fun _ => true) d start m (crawlInit start)).queue =
        [] ∧
      (∀ u,
        u ∈ (crawlRun links (fun _ => true) d start n
          (crawlInit start)).visited ↔ ReachN links start d u) ∧
      ((crawlRun links (fun _ => true) d start n
        (crawlInit start)).trace.map Prod.fst).Nodup ∧
      ((crawlRun links₂ (fun _ => true) d start m
        (crawlInit start)).trace.map Prod.fst).Nodup ∧
      (∀ u,
        u ∈ (crawlRun links₂ (fun _ => true) d start m
          (crawlInit start)).visited ↔
        u ∈ (crawlRun links (fun _ => true) d start n
          (crawlInit start)).visited) := by
  obtain ⟨n, hq1, hvis1, hnd1⟩ := crawl_characterization links d start
  obtain ⟨m, hq2, hvis2, hnd2⟩ := crawl_characterization links₂ d start
  refine ⟨n, m, hq1, hq2, hvis1, hnd1, hnd2, ?_⟩
  intro u
  rw [hvis1 u, hvis2 u]
  exact (reachN_congr hsame start d u).symm

/-- Witness for C3 at the concrete site `A → [B]`, depth 1. -/
theorem c3_bfs_visits_exactly_reachable_witness :
    ∃ n m,
      (crawlRun siteC3 (fun _ => true) 1 "A" n (crawlInit "A")).queue = [] ∧
      (crawlRun siteC3 (fun _ => true) 1 "A" m (crawlInit "A")).queue = [] ∧
      (∀ u,
        u ∈ (crawlRun siteC3 (fun _ => true) 1 "A" n
          (crawlInit "A")).visited ↔ ReachN siteC3 "A" 1 u) ∧
      ((crawlRun siteC3 (fun _ => true) 1 "A" n
        (crawlInit "A")).trace.map Prod.fst).Nodup ∧
      ((crawlRun siteC3 (fun _ => true) 1 "A" m
        (crawlInit "A")).trace.map Prod.fst).Nodup ∧
      (∀ u,
        u ∈ (crawlRun siteC3 (fun _ => true) 1 "A" m
          (crawlInit "A")).visited ↔
        u ∈ (crawlRun siteC3 (fun _ => true) 1 "A" n
          (crawlInit "A")).visited) :=
  c3_bfs_visits_exactly_reachable siteC3 siteC3 1 "A" (fun _ _ => Iff.rfl)

theorem mem_dedupFirstAux :
    ∀ (xs seen : List String) (v : String),
      v ∈ dedupFirstAux seen xs ↔ v ∈ xs ∧ v ∉ seen := by
  intro xs
  induction xs with
  | nil => intro seen v; simp [dedupFirstAux]
  | cons x rest ih =>
    intro seen v
    by_cases hx : x ∈ seen
    · rw [dedupFirstAux, if_pos hx, ih]
      simp only [List.mem_cons]
      constructor
      · rintro ⟨h1, h2⟩
        exact ⟨Or.inr h1, h2⟩
      · rintro ⟨h1 | h1, h2⟩
        · exact absurd (h1 ▸ hx) h2
        · exact ⟨h1, h2⟩
    · rw [dedupFirstAux, if_neg hx]
      simp only [List.mem_cons, ih, List.mem_cons, not_or]
      constructor
      · rintro (rfl | ⟨h1, h2, h3⟩)
        · exact ⟨Or.inl rfl, hx⟩
        · exact ⟨Or.inr h1, h3⟩
      · rintro ⟨rfl | h1, h2⟩
        · exact Or.inl rfl
        · by_cases hvx : v = x
          · exact Or.inl hvx
          · exact Or.inr ⟨h1, hvx, h2⟩

theorem nodup_dedupFirstAux :
    ∀ (xs seen : List String), (dedupFirstAux seen xs).Nodup := by
  intro xs
  induction xs with
  | nil => intro seen; simp [dedupFirstAux]
  | cons x rest ih =>
    intro seen
    by_cases hx : x ∈ seen
    · rw [dedupFirstAux, if_pos hx]
      exact ih seen
    · rw [dedupFirstAux, if_neg hx]
      refine List.nodup_cons.2 ⟨?_, ih (x :: seen)⟩
      intro hmem
      exact ((mem_dedupFirstAux rest (x :: seen) x).1 hmem).2
        (List.mem_cons_self _ _)

theorem dedupFirst_nodup (xs : List String) : (dedupFirst xs).Nodup :=
  nodup_dedupFirstAux xs []

theorem mem_dedupFirst (xs : List String) (v : String) :
    v ∈ dedupFirst xs ↔ v ∈ xs := by
  rw [dedupFirst, mem_dedupFirstAux]
  simp

theorem revOrder_nodup (xs : List String) : (revOrder xs).Nodup := by
  rw [revOrder, List.nodup_reverse]
  exact dedupFirst_nodup xs

theorem mem_revOrder (xs : List String) (v : String) :
    v ∈ revOrder xs ↔ v ∈ xs := by
  rw [revOrder, List.mem_reverse]
  exact mem_dedupFirst xs v

/-- **C8 counterexample.**  The links of page `A` are discovered in the order
`["B", "C"]`, but they are enqueued in the iteration order of the Python set
built from them, which the language does not fix.  `revOrder` is a valid set
iteration order (duplicate-free, same membership), under which the frontier
after processing `A` is `[("C", 1), ("B", 1)]` — not the discovery order —
and the whole traversal order differs from the one under insertion order, so
two runs of the crawl over the unchanged site need not reproduce the same
traversal order. -/
theorem c8_counterexample_enqueue_not_discovery_order :
    (revOrder (extractC8 "A")).Nodup ∧
    (∀ v, v ∈ revOrder (extractC8 "A") ↔ v ∈ extractC8 "A") ∧
    (crawlRun (fun u => revOrder (extractC8 u)) (fun _ => true) 2 "A" 1
      (crawlInit "A")).queue = [("C", 1), ("B", 1)] ∧
    (crawlRun (fun u => revOrder (extractC8 u)) (fun _ => true) 2 "A" 1
      (crawlInit "A")).queue ≠ (extractC8 "A").map (fun l => (l, 1)) ∧
    (crawlRun (fun u => revOrder (extractC8 u)) (fun _ => true) 2 "A" 10
      (crawlInit "A")).trace ≠
      (crawlRun (fun u => dedupFirst (extractC8 u)) (fun _ => true) 2 "A" 10
        (crawlInit "A")).trace := by
  refine ⟨revOrder_nodup _, fun v => mem_revOrder _ v, ?_, ?_, ?_⟩ <;> decide

/-- **C8 amended.**  What does hold: for every valid set iteration order
(duplicate-free, membership-preserving — all CPython guarantees), each page's
links are enqueued as a duplicate-free rearrangement of the discovered links
with the same membership, and the *visited set* of the finished crawl is the
same as under discovery order, although the traversal order need not be. -/
theorem c8_amended_enqueue_is_permutation (setOrder : List String → List String)
    (extract : String → List String) (d : Nat) (start : String)
    (hnd : ∀ xs, (setOrder xs).Nodup)
    (hmem : ∀ xs v, v ∈ setOrder xs ↔ v ∈ xs) :
    (∀ u, (setOrder (extract u)).Nodup ∧
      ∀ v, v ∈ setOrder (extract u) ↔ v ∈ extract u) ∧
    ∃ n m,
      (crawlRun (fun u => setOrder (extract u)) (fun _ => true) d start n
        (crawlInit start)).queue = [] ∧
      (crawlRun extract (fun _ => true) d start m (crawlInit start)).queue =
        [] ∧
      ∀ u,
        u ∈ (crawlRun (fun u => setOrder (extract u)) (fun _ => true) d start
          n (crawlInit start)).visited ↔
        u ∈ (crawlRun extract (fun _ => true) d start m
          (crawlInit start)).visited := by
  refine ⟨fun u => ⟨hnd _, fun v => hmem _ v⟩, ?_⟩
  obtain ⟨n, hq1, hvis1, _⟩ :=
    crawl_characterization (fun u => setOrder (extract u)) d start
  obtain ⟨m, hq2, hvis2, _⟩ := crawl_characterization extract d start
  refine ⟨n, m, hq1, hq2, fun u => ?_⟩
  rw [hvis1 u, hvis2 u]
  exact reachN_congr (fun w v => hmem (extract w) v) start d u

/-- Witness for the C8 amended theorem at `dedupFirst` (insertion order) over
the two-link site. -/
theorem c8_amended_enqueue_is_permutation_witness :
    (∀ u, (dedupFirst (extractC8 u)).Nodup ∧
      ∀ v, v ∈ dedupFirst (extractC8 u) ↔ v ∈ extractC8 u) ∧
    ∃ n m,
      (crawlRun (fun u => dedupFirst (extractC8 u)) (fun _ => true) 2 "A" n
        (crawlInit "A")).queue = [] ∧
      (crawlRun extractC8 (fun _ => true) 2 "A" m (crawlInit "A")).queue =
        [] ∧
      ∀ u,
        u ∈ (crawlRun (fun u => dedupFirst (extractC8 u)) (fun _ => true) 2
          "A" n (crawlInit "A")).visited ↔
        u ∈ (crawlRun extractC8 (fun _ => true) 2 "A" m
          (crawlInit "A")).visited :=
  c8_amended_enqueue_is_permutation dedupFirst extractC8 2 "A" dedupFirst_nodup
    (fun xs v => mem_dedupFirst xs v)


/-- **C6** (code_bug evaluation).  In the source, the failure handling the
claim describes never executes.  The crawl raises `TypeError` at the seed
state creation, before the main interaction loop (see C5); and,
independently, `_execute_action` fails *every* action unconditionally: the
`Action.from_decision` it calls is the domain/graph.py variant, whose
`isinstance` branches test the domain/decisions.py classes and never match
the crawler's domain/actions.py decision instances, so it raises
`ValueError`, caught by the method's `except`.  Hence, for every
environment, decision sequence and fuel: every action execution fails, and
the interaction loop as the source defines it never adds a state or an edge
(its graph and current state never change) and records only failed
actions. -/
theorem c6_no_action_ever_executes :
    (∀ (env : IEnv) (k : Nat) (d : ActionDecision),
      execActionStrict env k d = none) ∧
    (∀ (env : IEnv) (fuel : Nat) (s : ILoopState),
      (intLoopRunStrict env fuel s).graph = s.graph ∧
      (intLoopRunStrict env fuel s).current = s.current ∧
      ∀ p ∈ (intLoopRunStrict env fuel s).trace,
        p ∈ s.trace ∨ p.2 = false) := by
  have hafd : ∀ (aid i : String) (du : Nat) (su : Bool) (d : ActionDecision),
      actionFromDecisionGraphPy aid i du su d =
        Except.error "ValueError: Unsupported action decision type" := by
    intro aid i du su d
    unfold actionFromDecisionGraphPy
    rw [if_neg]
    show ¬ (decisionClassModule d = fromDecisionBranchModule)
    cases d <;> (simp only [decisionClassModule, fromDecisionBranchModule]; decide)
  have hexec : ∀ (env : IEnv) (k : Nat) (d : ActionDecision),
      execActionStrict env k d = none := by
    intro env k d
    unfold execActionStrict
    dsimp only
    cases d <;>
      cases hdom : env.domOk k <;> cases hnav : env.navOk k <;>
        cases hr : env.raw k <;>
        simp [hdom, hnav, hr, hafd]
  refine ⟨hexec, ?_⟩
  intro env fuel
  induction fuel with
  | zero => intro s; exact ⟨rfl, rfl, fun p hp => Or.inl hp⟩
  | succ fuel ih =>
    intro s
    unfold intLoopRunStrict
    match hd : env.decide s.k with
    | none => exact ⟨rfl, rfl, fun p hp => Or.inl hp⟩
    | some d =>
      dsimp only
      rw [hexec env s.k d]
      dsimp only
      by_cases hc : env.shouldCont s.k
      · rw [if_pos hc]
        obtain ⟨hg, hcur, htr⟩ :=
          ih ⟨s.graph, s.current, s.k + 1, s.trace ++ [(d, false)]⟩
        refine ⟨hg, hcur, fun p hp => ?_⟩
        rcases htr p hp with hp' | hp'
        · rcases List.mem_append.1 hp' with h | h
          · exact Or.inl h
          · simp at h
            rw [h]
            exact Or.inr rfl
        · exact Or.inr hp'
      · rw [if_neg hc]
        refine ⟨rfl, rfl, fun p hp => ?_⟩
        rcases List.mem_append.1 hp with h | h
        · exact Or.inl h
        · simp at h
          rw [h]
          exact Or.inr rfl

/-- **C7.**  At every point of an interactive crawl — for every value
`self.graph` takes during `InteractiveCrawler.crawl`, in order — every
`source_state_id` and `target_state_id` referenced by an Edge is a key of
the state map, every `PageState.page_id` is a key of the page map, and no
page, state or edge is ever removed (each graph value extends the previous
one).  The property holds degenerately: the crawl only ever builds the
initial empty graph and the seed one-page graph, because the seed
`_create_page_state` call raises `TypeError` (see C5) before any state or
edge can be added, so the state- and edge-referencing clauses are never
exercised beyond the vacuous case. -/
theorem c7_graph_invariants_at_every_point (env : IEnv) (startUrl : String)
    (fuel : Nat) :
    (∀ g ∈ interactiveCrawlStrictGraphs env startUrl fuel,
      EdgeRefInv g ∧ PageRefInv g) ∧
    List.Chain' graphExtends
      (interactiveCrawlStrictGraphs env startUrl fuel) := by
  unfold interactiveCrawlStrictGraphs
  match hseed : env.seedRaw with
  | none =>
    dsimp only
    constructor
    · intro g hg
      rw [List.mem_singleton] at hg
      subst hg
      constructor
      · intro e he
        simp [interactiveInitGraph] at he
      · intro p hp
        simp [interactiveInitGraph] at hp
    · simp
  | some r =>
    dsimp only
    rw [show createPageState (env.stamp 0) (env.iso 0) (env.scroll 0)
      (env.forms 0) (mkPage startUrl r) =
      Except.error
        "TypeError: __init__() got an unexpected keyword argument url"
      from rfl]
    dsimp only
    constructor
    · intro g hg
      rcases List.mem_cons.1 hg with rfl | hg
      · constructor
        · intro e he
          simp [interactiveInitGraph] at he
        · intro p hp
          simp [interactiveInitGraph] at hp
      · rw [List.mem_singleton] at hg
        subst hg
        constructor
        · intro e he
          simp [interactiveInitGraph, CrawlGraphM.add_page] at he
        · intro p hp
          simp [interactiveInitGraph, CrawlGraphM.add_page] at hp
    · rw [List.chain'_cons]
      refine ⟨⟨?_, ?_, [], ?_⟩, List.chain'_singleton _⟩
      · intro u hu
        simp [interactiveInitGraph, dictKeys] at hu
      · intro u hu
        simp [interactiveInitGraph, CrawlGraphM.add_page, dictKeys] at hu
      · simp [interactiveInitGraph, CrawlGraphM.add_page]

theorem toDigitsCore_acc (b : Nat) : ∀ (fuel n : Nat) (ds : List Char),
    Nat.toDigitsCore b fuel n ds = Nat.toDigitsCore b fuel n [] ++ ds := by
  intro fuel
  induction fuel with
  | zero => intro n ds; simp [Nat.toDigitsCore]
  | succ fuel ih =>
    intro n ds
    simp only [Nat.toDigitsCore]
    by_cases h : n / b = 0
    · simp [h]
    · simp only [h, if_false]
      rw [ih (n / b) [Nat.digitChar (n % b)],
        ih (n / b) (Nat.digitChar (n % b) :: ds)]
      simp

theorem toDigitsCore_fuel (b : Nat) (hb : 2 ≤ b) :
    ∀ (n f₁ f₂ : Nat), n < f₁ → n < f₂ →
      Nat.toDigitsCore b f₁ n [] = Nat.toDigitsCore b f₂ n [] := by
  intro n
  induction n using Nat.strong_induction_on with
  | _ n IH =>
    intro f₁ f₂ h₁ h₂
    obtain ⟨g₁, rfl⟩ : ∃ g, f₁ = g + 1 := ⟨f₁ - 1, by omega⟩
    obtain ⟨g₂, rfl⟩ : ∃ g, f₂ = g + 1 := ⟨f₂ - 1, by omega⟩
    simp only [Nat.toDigitsCore]
    by_cases h : n / b = 0
    · simp [h]
    · simp only [h, if_false]
      have hb0 : 0 < b := by omega
      have hn1 : 1 ≤ n := by
        by_contra hn
        have : n = 0 := by omega
        rw [this] at h
        simp at h
      have hdiv : n / b < n := Nat.div_lt_self (by omega) (by omega)
      rw [toDigitsCore_acc, toDigitsCore_acc b g₂]
      rw [IH (n / b) hdiv g₁ g₂ (by omega) (by omega)]

theorem toDigits_small {n : Nat} (h : n < 10) :
    Nat.toDigits 10 n = [Nat.digitChar n] := by
  unfold Nat.toDigits
  simp only [Nat.toDigitsCore]
  rw [if_pos (Nat.div_eq_of_lt h)]
  rw [Nat.mod_eq_of_lt h]

theorem toDigits_split {n : Nat} (h : 10 ≤ n) :
    Nat.toDigits 10 n =
      Nat.toDigits 10 (n / 10) ++ [Nat.digitChar (n % 10)] := by
  have hd : ¬ n / 10 = 0 := by
    intro h0
    have := Nat.div_eq_of_lt (by omega : n < 10 * 1)
    omega
  unfold Nat.toDigits
  conv_lhs => simp only [Nat.toDigitsCore]
  rw [if_neg hd]
  rw [toDigitsCore_acc]
  congr 1
  exact toDigitsCore_fuel 10 (by omega) (n / 10)
    n (n / 10 + 1) (Nat.div_lt_self (by omega) (by omega)) (Nat.lt_succ_self _)

theorem charsVal_append_digit (cs : List Char) (c : Char) :
    charsVal (cs ++ [c]) = 10 * charsVal cs + charVal c := by
  simp [charsVal, List.foldl_append]

theorem charVal_digitChar : ∀ m, m < 10 → charVal (Nat.digitChar m) = m := by
  decide

theorem charsVal_toDigits : ∀ n : Nat, charsVal (Nat.toDigits 10 n) = n := by
  intro n
  induction n using Nat.strong_induction_on with
  | _ n IH =>
    by_cases h : n < 10
    · rw [toDigits_small h]
      simp only [charsVal, List.foldl_cons, List.foldl_nil]
      rw [charVal_digitChar n h]
      omega
    · have h10 : 10 ≤ n := by omega
      rw [toDigits_split h10, charsVal_append_digit]
      rw [IH (n / 10) (Nat.div_lt_self (by omega) (by omega))]
      rw [charVal_digitChar (n % 10) (Nat.mod_lt _ (by omega))]
      omega

theorem digitChar_ne_underscore : ∀ m, m < 10 → Nat.digitChar m ≠ '_' := by
  decide

theorem underscore_not_mem_toDigits : ∀ n : Nat, '_' ∉ Nat.toDigits 10 n := by
  intro n
  induction n using Nat.strong_induction_on with
  | _ n IH =>
    by_cases h : n < 10
    · rw [toDigits_small h]
      intro hmem
      rcases List.mem_singleton.1 hmem with h'
      exact digitChar_ne_underscore n h h'.symm
    · have h10 : 10 ≤ n := by omega
      rw [toDigits_split h10]
      intro hmem
      rcases List.mem_append.1 hmem with h' | h'
      · exact IH (n / 10) (Nat.div_lt_self (by omega) (by omega)) h'
      · rcases List.mem_singleton.1 h' with h''
        exact digitChar_ne_underscore (n % 10) (Nat.mod_lt _ (by omega))
          h''.symm

theorem sep_split : ∀ (xs₁ : List Char) (t₁ : List Char) (xs₂ t₂ : List Char),
    xs₁ ++ '_' :: t₁ = xs₂ ++ '_' :: t₂ → '_' ∉ xs₁ → '_' ∉ xs₂ →
      xs₁ = xs₂ ∧ t₁ = t₂ := by
  intro xs₁
  induction xs₁ with
  | nil =>
    intro t₁ xs₂ t₂ heq _ h₂
    match xs₂, heq with
    | [], heq => simp at heq; exact ⟨rfl, heq⟩
    | c :: xs₂', heq =>
      simp at heq
      obtain ⟨rfl, _⟩ := heq
      exact absurd (List.mem_cons_self _ _) h₂
  | cons c xs₁' ih =>
    intro t₁ xs₂ t₂ heq h₁ h₂
    match xs₂, heq with
    | [], heq =>
      simp at heq
      obtain ⟨rfl, _⟩ := heq
      exact absurd (List.mem_cons_self _ _) h₁
    | c₂ :: xs₂', heq =>
      simp at heq
      obtain ⟨rfl, heq⟩ := heq
      have h₁' : '_' ∉ xs₁' := fun h => h₁ (List.mem_cons_of_mem _ h)
      have h₂' : '_' ∉ xs₂' := fun h => h₂ (List.mem_cons_of_mem _ h)
      obtain ⟨he, ht⟩ := ih t₁ xs₂' t₂ heq h₁' h₂'
      exact ⟨by rw [he], ht⟩

/-- The decimal counter suffix determines the counter: two synthetic element
ids `cat ++ "_" ++ repr n` can only coincide when the counters coincide. -/
theorem elemId_counter_inj {c₁ c₂ : String} {n₁ n₂ : Nat}
    (h : c₁ ++ "_" ++ Nat.repr n₁ = c₂ ++ "_" ++ Nat.repr n₂) : n₁ = n₂ := by
  have hdata : c₁.data ++ '_' :: (Nat.repr n₁).data =
      c₂.data ++ '_' :: (Nat.repr n₂).data := by
    have := congrArg String.data h
    simpa [String.data_append] using this
  have hrev : ((Nat.repr n₁).data.reverse ++ '_' :: c₁.data.reverse) =
      ((Nat.repr n₂).data.reverse ++ '_' :: c₂.data.reverse) := by
    have := congrArg List.reverse hdata
    simpa [List.reverse_append] using this
  have hd₁ : (Nat.repr n₁).data = Nat.toDigits 10 n₁ := rfl
  have hd₂ : (Nat.repr n₂).data = Nat.toDigits 10 n₂ := rfl
  have hno₁ : '_' ∉ (Nat.repr n₁).data.reverse := by
    rw [List.mem_reverse, hd₁]
    exact underscore_not_mem_toDigits n₁
  have hno₂ : '_' ∉ (Nat.repr n₂).data.reverse := by
    rw [List.mem_reverse, hd₂]
    exact underscore_not_mem_toDigits n₂
  obtain ⟨he, _⟩ := sep_split _ _ _ _ hrev hno₁ hno₂
  have : (Nat.repr n₁).data = (Nat.repr n₂).data := by
    have := congrArg List.reverse he
    simpa using this
  rw [hd₁, hd₂] at this
  calc n₁ = charsVal (Nat.toDigits 10 n₁) := (charsVal_toDigits n₁).symm
    _ = charsVal (Nat.toDigits 10 n₂) := by rw [this]
    _ = n₂ := charsVal_toDigits n₂

theorem scanCategory_counter_le (cat : String) :
    ∀ (elems : List RawElem) (count : Nat),
      count ≤ (scanCategory cat elems count).2 := by
  intro elems
  induction elems with
  | nil => intro count; exact Nat.le_refl _
  | cons e rest ih =>
    intro count
    by_cases hv : e.visible
    · rw [scanCategory, if_pos hv]
      dsimp only
      have := ih (count + 1)
      omega
    · rw [scanCategory, if_neg hv]
      exact ih count

theorem scanCategory_id_shape (cat : String) :
    ∀ (elems : List RawElem) (count : Nat),
      ∀ e ∈ (scanCategory cat elems count).1,
        ∃ m, count < m ∧ m ≤ (scanCategory cat elems count).2 ∧
          e.element_id = cat ++ "_" ++ Nat.repr m := by
  intro elems
  induction elems with
  | nil => intro count e he; exact absurd he (List.not_mem_nil _)
  | cons e₀ rest ih =>
    intro count e he
    by_cases hv : e₀.visible
    · rw [scanCategory, if_pos hv] at he ⊢
      rcases List.mem_cons.1 he with rfl | htl
      · exact ⟨count + 1, Nat.lt_succ_self _,
          scanCategory_counter_le cat rest (count + 1), rfl⟩
      · obtain ⟨m, h1, h2, h3⟩ := ih (count + 1) e htl
        exact ⟨m, by omega, h2, h3⟩
    · rw [scanCategory, if_neg hv] at he ⊢
      exact ih count e he

theorem scanCategory_ids_nodup (cat : String) :
    ∀ (elems : List RawElem) (count : Nat),
      ((scanCategory cat elems count).1.map
        InteractiveElement.element_id).Nodup := by
  intro elems
  induction elems with
  | nil => intro count; simp [scanCategory]
  | cons e₀ rest ih =>
    intro count
    by_cases hv : e₀.visible
    · rw [scanCategory, if_pos hv]
      simp only [List.map_cons]
      refine List.nodup_cons.2 ⟨?_, ih (count + 1)⟩
      intro hmem
      obtain ⟨e, he, hid⟩ := List.mem_map.1 hmem
      obtain ⟨m, h1, _, h3⟩ := scanCategory_id_shape cat rest (count + 1) e he
      rw [h3, show (mkScanElem cat (count + 1) e₀).element_id =
        cat ++ "_" ++ Nat.repr (count + 1) from rfl] at hid
      have : m = count + 1 := elemId_counter_inj hid
      omega
    · rw [scanCategory, if_neg hv]
      exact ih count

theorem scanLoop_ids_bounded :
    ∀ (inputs : List (String × Option (List RawElem))) (count : Nat),
      (∀ idStr ∈ scanIds (scanLoop inputs count),
        ∃ cat m, count < m ∧ idStr = cat ++ "_" ++ Nat.repr m) ∧
      (scanIds (scanLoop inputs count)).Nodup := by
  intro inputs
  induction inputs with
  | nil => intro count; constructor
           · intro idStr h; exact absurd h (by simp [scanLoop, scanIds])
           · simp [scanLoop, scanIds]
  | cons p rest ih =>
    intro count
    obtain ⟨cat, elemsOpt⟩ := p
    match elemsOpt with
    | none =>
      rw [scanLoop]
      have hids : scanIds ((cat, []) :: scanLoop rest count) =
          scanIds (scanLoop rest count) := by simp [scanIds]
      rw [hids]
      exact ih count
    | some elems =>
      rw [scanLoop]
      by_cases hne : (scanCategory cat elems count).1 ≠ []
      · rw [if_pos hne]
        have hids : scanIds ((cat, (scanCategory cat elems count).1) ::
            scanLoop rest (scanCategory cat elems count).2) =
            (scanCategory cat elems count).1.map
              InteractiveElement.element_id ++
            scanIds (scanLoop rest (scanCategory cat elems count).2) := by
          simp [scanIds]
        rw [hids]
        have hcle := scanCategory_counter_le cat elems count
        obtain ⟨ihshape, ihnodup⟩ := ih (scanCategory cat elems count).2
        constructor
        · intro idStr hmem
          rcases List.mem_append.1 hmem with h | h
          · obtain ⟨e, he, hid⟩ := List.mem_map.1 h
            obtain ⟨m, h1, _, h3⟩ := scanCategory_id_shape cat elems count e he
            exact ⟨cat, m, h1, by rw [← hid, h3]⟩
          · obtain ⟨cat', m, h1, h2⟩ := ihshape idStr h
            exact ⟨cat', m, by omega, h2⟩
        · rw [List.nodup_append]
          refine ⟨scanCategory_ids_nodup cat elems count, ihnodup, ?_⟩
          intro idStr hmem₁ hmem₂
          obtain ⟨e, he, hid⟩ := List.mem_map.1 hmem₁
          obtain ⟨m₁, hm1, hm1le, h3⟩ :=
            scanCategory_id_shape cat elems count e he
          obtain ⟨cat', m₂, hm2, h2⟩ := ihshape idStr hmem₂
          rw [← hid, h3] at h2
          have : m₁ = m₂ := elemId_counter_inj h2
          omega
      · rw [if_neg hne]
        obtain ⟨ihshape, ihnodup⟩ := ih (scanCategory cat elems count).2
        have hcle := scanCategory_counter_le cat elems count
        constructor
        · intro idStr hmem
          obtain ⟨cat', m, h1, h2⟩ := ihshape idStr hmem
          exact ⟨cat', m, by omega, h2⟩
        · exact ihnodup

/-- **C9 amended.**  Within a single `find_interactive_elements` scan, the
synthetic element ids (category name plus the running counter) are pairwise
distinct.  (Across scans of the same crawl run they are *not* unique — the
counter is a local variable reset to 0 on every call; see the
counterexample.) -/
theorem c9_amended_ids_unique_within_scan
    (inputs : List (String × Option (List RawElem))) :
    (scanIds (findInteractiveElements inputs)).Nodup :=
  (scanLoop_ids_bounded inputs 0).2

/-- **C9 counterexample.**  Two scans of the same run (here: of identical
pages) both produce the id `"buttons_1"`: the combined ids of the run's scans
are not duplicate-free, refuting crawl-run-wide uniqueness. -/
theorem c9_counterexample_ids_repeat_across_scans :
    (runScans [scanC9, scanC9]).map scanIds =
      [["buttons_1"], ["buttons_1"]] ∧
    ¬ ((runScans [scanC9, scanC9]).flatMap scanIds).Nodup := by
  constructor <;> decide

/-- **C10.**  For a `CrawlGraph` whose state map and visited-state set start
empty, after any sequence of `add_page` / `add_state` / `add_edge` calls the
visited-state set has exactly the keys of the state map: `add_state` is the
only operation touching either, and it inserts the `state_id` into both. -/
theorem c10_visited_states_equals_state_keys (g₀ : CrawlGraphM GPageState)
    (ops : List GraphOp) (h1 : g₀.states = []) (h2 : g₀.visited_states = []) :
    ∀ u, u ∈ (ops.foldl applyOp g₀).visited_states ↔
      u ∈ dictKeys (ops.foldl applyOp g₀).states := by
  have main : ∀ (ops : List GraphOp) (g : CrawlGraphM GPageState),
      (∀ u, u ∈ g.visited_states ↔ u ∈ dictKeys g.states) →
      ∀ u, u ∈ (ops.foldl applyOp g).visited_states ↔
        u ∈ dictKeys (ops.foldl applyOp g).states := by
    intro ops
    induction ops with
    | nil => intro g hg; exact hg
    | cons op rest ih =>
      intro g hg
      rw [List.foldl_cons]
      apply ih
      match op with
      | .addPage p => exact hg
      | .addEdge e => exact hg
      | .addState st =>
        intro u
        show u ∈ setAdd g.visited_states st.state_id ↔
          u ∈ dictKeys (dictInsert g.states st.state_id st)
        rw [mem_setAdd, mem_dictKeys_insert, hg u]
  apply main
  intro u
  rw [h1, h2]
  simp [dictKeys]

/-- Witness for C10: one page, one state, one edge added to an empty graph,
checked at the inserted state id. -/
theorem c10_visited_states_equals_state_keys_witness :
    "s1" ∈ (opsC10.foldl applyOp
      { start_url := "http://A", pages := [], states := [], edges := []
        timestamp := "2025-01-01T00:00:00",
        visited_states := [] }).visited_states ↔
      "s1" ∈ dictKeys (opsC10.foldl applyOp
        { start_url := "http://A", pages := [], states := [], edges := []
          timestamp := "2025-01-01T00:00:00",
          visited_states := [] }).states :=
  c10_visited_states_equals_state_keys _ opsC10 rfl rfl "s1"
